import Mathlib

/-!
Ember, the V4L2 capture driver and its capture loop.

A shallow embedding of `src/video-driver.c`, `include/video-driver.h` and the
capture thread / main thread of `src/main.c`.

The program talks to the outside world (the kernel, libc, SDL) through calls
whose results it cannot predict.  Every such call is recorded, together with
the answer it received, as an `Event` in a chronological trace; the answers
come from a `Device`, an oracle that may look at the whole history of calls.
`exit(EXIT_FAILURE)` is an event that also moves the process status to
`exited` (the event stands for the whole of process termination, the
`atexit` hook included); a read of `video_buffers` outside the initialised
table (undefined in C) stops the run with status `undefined`.

The `printf` lines under `#ifndef NDEBUG` write to stdout only and are not
part of the trace.
-/

namespace Ember

/-! Section: Constants of `video-driver.h` and of the C library -/

/-- The header default `#define REQUEST_BUFFERS 4`. -/
def REQUEST_BUFFERS : Nat := 4

/-- The header default `#define VIDEO_HEIGHT 480`. -/
def VIDEO_HEIGHT : Nat := 480

/-- The header default `#define VIDEO_WIDTH 640`. -/
def VIDEO_WIDTH : Nat := 640

def EXIT_SUCCESS : Nat := 0

def EXIT_FAILURE : Nat := 1

/-- The value `(void *) -1` on a 64-bit target. -/
def MAP_FAILED : Nat := 2 ^ 64 - 1

/-- The size of `video_buffer_t` (a pointer and a `size_t`) on a 64-bit target. -/
def sizeof_video_buffer_t : Nat := 16

/-- The fourcc code `V4L2_PIX_FMT_YUYV`, i.e. 'Y','U','Y','V' little endian. -/
def V4L2_PIX_FMT_YUYV : Nat := 0x56595559

/-- Conversion of a `size_t` argument to the `int` parameter of a frame
handler (two's complement wrap, as gcc and clang do it). -/
def int_of_size_t (n : Nat) : Int :=
  if n % 2 ^ 32 < 2 ^ 31 then (n % 2 ^ 32 : Nat) else ((n % 2 ^ 32 : Nat) : Int) - 2 ^ 32

/-! Section: Data model -/

/-- The `video_buffer_t` of the header: mapping base and length. -/
structure video_buffer_t where
  start : Nat
  length : Nat
deriving DecidableEq

/-- The `stream_handler_t` of `main.c`; `frame_handler` tells whether the
function pointer is non-null. -/
structure stream_handler_t where
  device_descriptor : Int
  frame_handler : Bool
deriving DecidableEq

/-- What `select` reported: `-1`, `0`, or a positive count together with
the value of `FD_ISSET` for the device descriptor. -/
inductive SelectResult where
  | error
  | timeout
  | ready (isset : Bool)
deriving DecidableEq

/-- The four SDL set-up calls of the capture thread. -/
inductive SdlCall where
  | init
  | createWindow
  | createRenderer
  | createTexture
deriving DecidableEq

/-- The event kinds the main loop distinguishes. -/
inductive SdlEvent where
  | keydown (escape : Bool)
  | quit
  | other
deriving DecidableEq

/-- The lines the program writes to stderr. -/
inductive Message where
  | statFailed
  | notCharacterDevice
  | openFailed
  | closeFailed
  | setFormatFailed
  | setFramerateFailed
  | requestBuffersError
  | allocationFailure
  | queryBufferError
  | couldNotMap
  | unmapFailed
  | queueBufferFailed
  | streamOnFailed
  | streamOffFailed
  | sdlInitFailed
  | windowInitFailed
  | rendererInitFailed
  | textureInitFailed
  | selectError
  | timedOut
  | dqbufFailure
  | qbufFailure
  | threadCreationFailed
  | callbackRegistrationFailed
deriving DecidableEq

/-- One call to the outside world with the answer it got. -/
inductive Event where
  | atexit (ok : Bool)
  | stat (r : Option Bool)
  | sys_open (r : Option Int)
  | close (fd : Int) (ok : Bool)
  | s_fmt (fd : Int) (format width height : Nat) (ok : Bool)
  | s_parm (fd : Int) (frames_per_second : Int) (ok : Bool)
  | reqbufs (fd : Int) (count : Nat) (r : Option Nat)
  | malloc (size : Nat) (ok : Bool)
  | querybuf (fd : Int) (index : Nat) (r : Option (Nat × Nat))
  | mmap (fd : Int) (length offset : Nat) (r : Nat)
  | munmap (start length : Nat) (ok : Bool)
  | qbuf (fd : Int) (index : Nat) (ok : Bool)
  | dqbuf (fd : Int) (r : Option Nat)
  | streamon (fd : Int) (ok : Bool)
  | streamoff (fd : Int) (ok : Bool)
  | select (fd : Int) (r : SelectResult)
  | handler (frame : Nat) (length : Int)
  | sdl (call : SdlCall) (ok : Bool)
  | sdl_quit
  | pthread_create (ok : Bool)
  | stderr (m : Message)
  | exit (code : Nat)
deriving DecidableEq

/-- The outside world: each field answers one kind of call, given the
history of all earlier calls and the arguments.  `none` / `false` stand for
the failure value (`-1`, `NULL`); `mmap` returns the pointer, `MAP_FAILED`
on failure; `vidioc_querybuf` returns `(length, m.offset)`. -/
structure Device where
  atexit : List Event → Bool
  stat : List Event → Option Bool
  sys_open : List Event → Option Int
  close : List Event → Int → Bool
  vidioc_s_fmt : List Event → Bool
  vidioc_s_parm : List Event → Bool
  vidioc_reqbufs : List Event → Nat → Option Nat
  malloc : List Event → Nat → Bool
  vidioc_querybuf : List Event → Nat → Option (Nat × Nat)
  mmap : List Event → Nat → Nat → Nat
  munmap : List Event → Nat → Nat → Bool
  vidioc_qbuf : List Event → Nat → Bool
  vidioc_dqbuf : List Event → Option Nat
  vidioc_streamon : List Event → Bool
  vidioc_streamoff : List Event → Bool
  select : List Event → SelectResult
  sdl : List Event → SdlCall → Bool
  pthread_create : List Event → Bool

/-- Whether the process is alive. -/
inductive Status where
  | running
  | exited (code : Nat)
  | undefined
deriving DecidableEq

/-- The process-wide state: the trace so far, the static `video_buffers`
(`none` is `NULL`; an entry `none` is an element `malloc` left
uninitialised), the static `thread_exit_signal`, and the process status. -/
structure State where
  trace : List Event
  video_buffers : Option (List (Option video_buffer_t))
  thread_exit_signal : Int
  status : Status
deriving DecidableEq

/-- The state at program start: the statics have their initialisers. -/
def State.init : State :=
  { trace := [], video_buffers := none, thread_exit_signal := 0, status := .running }

/-- Record one event. -/
def State.emit (st : State) (e : Event) : State :=
  { st with trace := st.trace ++ [e] }

/-- The pattern `fprintf(stderr, ...); exit(EXIT_FAILURE);`. -/
def State.fail (st : State) (m : Message) : State :=
  { st with trace := st.trace ++ [.stderr m, .exit EXIT_FAILURE], status := .exited EXIT_FAILURE }

/-- Statement sequencing: the second statement runs only in a live process. -/
def State.andThen (st : State) (f : State → State) : State :=
  if st.status = .running then f st else st

/-- The read `video_buffers[i]`: defined only for an initialised element of
an allocated table. -/
def readSlot (video_buffers : Option (List (Option video_buffer_t))) (i : Nat) :
    Option video_buffer_t :=
  match video_buffers with
  | none => none
  | some table => (table.get? i).join

/-- The write `video_buffers[i] = b`. -/
def writeSlot (video_buffers : Option (List (Option video_buffer_t))) (i : Nat)
    (b : video_buffer_t) : Option (List (Option video_buffer_t)) :=
  video_buffers.map fun table => table.set i (some b)

/-! Section: `video-driver.c` -/

def get_video_buffers (st : State) : Option (List (Option video_buffer_t)) :=
  st.video_buffers

/-- Returns the state and the descriptor (meaningful in a live process). -/
def open_video_stream (dev : Device) (st : State) : State × Int :=
  match dev.stat st.trace with
  | none => ((st.emit (.stat none)).fail .statFailed, -1)
  | some false => ((st.emit (.stat (some false))).fail .notCharacterDevice, -1)
  | some true =>
    let st := st.emit (.stat (some true))
    match dev.sys_open st.trace with
    | none => ((st.emit (.sys_open none)).fail .openFailed, -1)
    | some device_descriptor => (st.emit (.sys_open (some device_descriptor)), device_descriptor)

def close_video_stream (dev : Device) (device_descriptor : Int) (st : State) : State :=
  let ok := dev.close st.trace device_descriptor
  let st := st.emit (.close device_descriptor ok)
  if ok then st else st.fail .closeFailed

def set_video_buffer_format (dev : Device) (device_descriptor : Int) (format : Nat)
    (st : State) : State :=
  let ok := dev.vidioc_s_fmt st.trace
  let st := st.emit (.s_fmt device_descriptor format VIDEO_WIDTH VIDEO_HEIGHT ok)
  if ok then st else st.fail .setFormatFailed

def set_video_buffer_framerate (dev : Device) (device_descriptor : Int)
    (frames_per_second : Int) (st : State) : State :=
  let ok := dev.vidioc_s_parm st.trace
  let st := st.emit (.s_parm device_descriptor frames_per_second ok)
  if ok then st else st.fail .setFramerateFailed

/-- The `for (n_buffers = ...; n_buffers < request_buffers.count; ++n_buffers)`
loop of `memory_map_video_buffer`; `remaining` is `count - n_buffers`. -/
def map_loop (dev : Device) (device_descriptor : Int) : Nat → Nat → State → State
  | 0, _, st => st
  | remaining + 1, n_buffers, st =>
    match dev.vidioc_querybuf st.trace n_buffers with
    | none => (st.emit (.querybuf device_descriptor n_buffers none)).fail .queryBufferError
    | some (length, offset) =>
      let st := st.emit (.querybuf device_descriptor n_buffers (some (length, offset)))
      let start := dev.mmap st.trace length offset
      let st := st.emit (.mmap device_descriptor length offset start)
      let st := { st with video_buffers := writeSlot st.video_buffers n_buffers ⟨start, length⟩ }
      if start = MAP_FAILED then st.fail .couldNotMap
      else map_loop dev device_descriptor remaining (n_buffers + 1) st

def memory_map_video_buffer (dev : Device) (device_descriptor : Int) (st : State) : State :=
  match dev.vidioc_reqbufs st.trace REQUEST_BUFFERS with
  | none => (st.emit (.reqbufs device_descriptor REQUEST_BUFFERS none)).fail .requestBuffersError
  | some count =>
    let st := st.emit (.reqbufs device_descriptor REQUEST_BUFFERS (some count))
    let size := count * sizeof_video_buffer_t
    let ok := dev.malloc st.trace size
    let st := st.emit (.malloc size ok)
    if ok then
      map_loop dev device_descriptor count 0
        { st with video_buffers := some (List.replicate count none) }
    else
      { st with video_buffers := none }.fail .allocationFailure

/-- The `for (int i = 0; i < REQUEST_BUFFERS; ++i)` loop of
`unmap_video_buffers`; `remaining` is `REQUEST_BUFFERS - i`. -/
def unmap_loop (dev : Device) : Nat → Nat → State → State
  | 0, _, st => st
  | remaining + 1, i, st =>
    match readSlot st.video_buffers i with
    | none => { st with status := .undefined }
    | some b =>
      let ok := dev.munmap st.trace b.start b.length
      let st := st.emit (.munmap b.start b.length ok)
      if ok then unmap_loop dev remaining (i + 1) st else st.fail .unmapFailed

def unmap_video_buffers (dev : Device) (st : State) : State :=
  unmap_loop dev REQUEST_BUFFERS 0 st

/-- The `for (size_t i = 0; i < REQUEST_BUFFERS; ++i)` loop of
`start_video_stream`; `remaining` is `REQUEST_BUFFERS - i`. -/
def start_loop (dev : Device) (device_descriptor : Int) : Nat → Nat → State → State
  | 0, _, st => st
  | remaining + 1, i, st =>
    let ok := dev.vidioc_qbuf st.trace i
    let st := st.emit (.qbuf device_descriptor i ok)
    if ok then start_loop dev device_descriptor remaining (i + 1) st
    else st.fail .queueBufferFailed

def start_video_stream (dev : Device) (device_descriptor : Int) (st : State) : State :=
  (start_loop dev device_descriptor REQUEST_BUFFERS 0 st).andThen fun st =>
    let ok := dev.vidioc_streamon st.trace
    let st := st.emit (.streamon device_descriptor ok)
    if ok then st else st.fail .streamOnFailed

def stop_video_stream (dev : Device) (device_descriptor : Int) (st : State) : State :=
  let ok := dev.vidioc_streamoff st.trace
  let st := st.emit (.streamoff device_descriptor ok)
  if ok then st else st.fail .streamOffFailed

/-! Section: `main.c`: the capture thread -/

/-- One of the four SDL set-up calls of `video_streaming`, with its
`fprintf` / `exit` on failure. -/
def sdl_setup_call (dev : Device) (call : SdlCall) (m : Message) (st : State) : State :=
  let ok := dev.sdl st.trace call
  let st := st.emit (.sdl call ok)
  if ok then st else st.fail m

/-- The part of `video_streaming` before the `while` loop. -/
def video_streaming_setup (dev : Device) (st : State) : State :=
  (((sdl_setup_call dev .init .sdlInitFailed st).andThen
    (sdl_setup_call dev .createWindow .windowInitFailed)).andThen
    (sdl_setup_call dev .createRenderer .rendererInitFailed)).andThen
    (sdl_setup_call dev .createTexture .textureInitFailed)

/-- The body of the `while (!thread_exit_signal)` loop of `video_streaming`. -/
def video_streaming_body (dev : Device) (arg : stream_handler_t) (st : State) : State :=
  match dev.select st.trace with
  | .error => (st.emit (.select arg.device_descriptor .error)).fail .selectError
  | .timeout => (st.emit (.select arg.device_descriptor .timeout)).emit (.stderr .timedOut)
  | .ready isset =>
    let st := st.emit (.select arg.device_descriptor (.ready isset))
    if isset then
      match dev.vidioc_dqbuf st.trace with
      | none => (st.emit (.dqbuf arg.device_descriptor none)).fail .dqbufFailure
      | some index =>
        let st := st.emit (.dqbuf arg.device_descriptor (some index))
        let st :=
          if arg.frame_handler then
            match readSlot (get_video_buffers st) index with
            | none => { st with status := .undefined }
            | some b => st.emit (.handler b.start (int_of_size_t b.length))
          else st
        st.andThen fun st =>
          let ok := dev.vidioc_qbuf st.trace index
          let st := st.emit (.qbuf arg.device_descriptor index ok)
          if ok then st else st.fail .qbufFailure
    else st

/-- The `while (!thread_exit_signal)` loop, run for at most `fuel`
iterations.  The flag of the result tells whether the loop was left through
its condition, i.e. whether `video_streaming` reached `return NULL`. -/
def video_streaming_loop (dev : Device) (arg : stream_handler_t) : Nat → State → State × Bool
  | 0, st => (st, false)
  | fuel + 1, st =>
    if st.thread_exit_signal ≠ 0 then (st, true)
    else
      let st := video_streaming_body dev arg st
      if st.status = .running then video_streaming_loop dev arg fuel st else (st, false)

/-! Section: `main.c`: the main thread and the two threads together -/

/-- The inner `while (SDL_PollEvent(&event))` loop over the pending events:
the new value of the local `exit`. -/
def poll_events (events : List SdlEvent) (exit : Int) : Int :=
  events.foldl
    (fun exit event =>
      match event with
      | .keydown true => 1
      | .keydown false => exit
      | .quit => 1
      | .other => exit)
    exit

/-- The statements of `main` up to and including `pthread_create`: the
resulting state and the device descriptor. -/
def main_setup (dev : Device) (st : State) : State × Int :=
  let ok := dev.atexit st.trace
  let st := st.emit (.atexit ok)
  if ok then
    let opened := open_video_stream dev st
    let device_descriptor := opened.2
    let st := opened.1.andThen (set_video_buffer_format dev device_descriptor V4L2_PIX_FMT_YUYV)
    let st := st.andThen (set_video_buffer_framerate dev device_descriptor 30)
    let st := st.andThen (memory_map_video_buffer dev device_descriptor)
    let st := st.andThen (start_video_stream dev device_descriptor)
    let st := st.andThen fun st =>
      let ok := dev.pthread_create st.trace
      let st := st.emit (.pthread_create ok)
      if ok then st
      else
        (stop_video_stream dev device_descriptor (st.emit (.stderr .threadCreationFailed))).andThen
          fun st =>
            { st with trace := st.trace ++ [.sdl_quit, .exit EXIT_FAILURE],
                      status := .exited EXIT_FAILURE }
    (st, device_descriptor)
  else (st.fail .callbackRegistrationFailed, -1)

/-- The statements of `main` after `pthread_join` has returned. -/
def main_teardown (dev : Device) (device_descriptor : Int) (st : State) : State :=
  (((stop_video_stream dev device_descriptor st).andThen (unmap_video_buffers dev)).andThen
    (close_video_stream dev device_descriptor)).andThen fun st =>
      { st with trace := st.trace ++ [.exit EXIT_SUCCESS], status := .exited EXIT_SUCCESS }

/-- Where the main thread stands once the capture thread exists. -/
inductive MainPc where
  | eventLoop
  | joining
  | finished
deriving DecidableEq

/-- Where the capture thread stands. -/
inductive CapturePc where
  | setup
  | looping
  | returned
deriving DecidableEq

/-- The two threads over the shared process state; `exit` is the local
variable of `main`. -/
structure Program where
  st : State
  arg : stream_handler_t
  exit : Int
  main_pc : MainPc
  capture_pc : CapturePc
deriving DecidableEq

/-- One scheduling decision: the main thread runs one iteration of its event
loop (with the SDL events then pending) or one attempt at the join, or the
capture thread runs its set-up or one loop iteration. -/
inductive Sched where
  | main (events : List SdlEvent)
  | capture
deriving DecidableEq

/-- The program when `main` has run up to and including `pthread_create`
(a dead process, which takes no further step, if any of that failed); the
capture thread is handed `frame_handler`, a non-null pointer. -/
def Program.start (dev : Device) : Program :=
  let r := main_setup dev State.init
  { st := r.1, arg := ⟨r.2, true⟩, exit := 0, main_pc := .eventLoop, capture_pc := .setup }

/-- A step of the main thread. -/
def main_step (dev : Device) (events : List SdlEvent) (p : Program) : Program :=
  match p.main_pc with
  | .eventLoop =>
    if p.exit ≠ 0 then { p with main_pc := .joining }
    else { p with exit := poll_events events p.exit }
  | .joining =>
    if p.capture_pc = .returned then
      { p with st := main_teardown dev p.arg.device_descriptor p.st, main_pc := .finished }
    else p
  | .finished => p

/-- A step of the capture thread. -/
def capture_step (dev : Device) (p : Program) : Program :=
  match p.capture_pc with
  | .setup =>
    let st := video_streaming_setup dev p.st
    { p with st := st, capture_pc := if st.status = .running then .looping else .setup }
  | .looping =>
    if p.st.thread_exit_signal ≠ 0 then { p with capture_pc := .returned }
    else { p with st := video_streaming_body dev p.arg p.st }
  | .returned => p

/-- One step under a scheduling decision; a dead process takes no step. -/
def step (dev : Device) (p : Program) (s : Sched) : Program :=
  if p.st.status = .running then
    match s with
    | .main events => main_step dev events p
    | .capture => capture_step dev p
  else p

/-- The program after a whole schedule. -/
def run (dev : Device) (schedule : List Sched) : Program :=
  schedule.foldl (step dev) (Program.start dev)

/-! Section: Vocabulary of the properties -/

/-- Number of memory-map calls in a trace. -/
def mmapCalls (tr : List Event) : Nat :=
  tr.countP fun e => match e with
    | .mmap _ _ _ _ => true
    | _ => false

/-- Number of buffer-query calls in a trace. -/
def querybufCalls (tr : List Event) : Nat :=
  tr.countP fun e => match e with
    | .querybuf _ _ _ => true
    | _ => false

/-- Number of unmap calls in a trace. -/
def munmapCalls (tr : List Event) : Nat :=
  tr.countP fun e => match e with
    | .munmap _ _ _ => true
    | _ => false

/-- Number of dequeue calls in a trace. -/
def dqbufCalls (tr : List Event) : Nat :=
  tr.countP fun e => match e with
    | .dqbuf _ _ => true
    | _ => false

/-- Number of consumer invocations in a trace. -/
def handlerCalls (tr : List Event) : Nat :=
  tr.countP fun e => match e with
    | .handler _ _ => true
    | _ => false

/-- The teardown calls of a trace (stream-off, unmap, close), in order. -/
def teardownCalls (tr : List Event) : List Event :=
  tr.filter fun e => match e with
    | .streamoff _ _ => true
    | .munmap _ _ _ => true
    | .close _ _ => true
    | _ => false

/-- Rollback as the mapping contract words it: every mapping that was
established in the trace is unmapped later in the trace. -/
def rolledBack : List Event → Bool
  | [] => true
  | .mmap _ length _ start :: rest =>
    (start == MAP_FAILED || rest.any fun e =>
      match e with
      | .munmap s l _ => s == start && l == length
      | _ => false) && rolledBack rest
  | _ :: rest => rolledBack rest

/-- The calls of a successful mapping loop from index `i` on: for each slot
`(length, offset, address)` the query of its index, answered with
`(length, offset)`, then the memory-map of that length and offset, answered
with `address`. -/
def mapCalls (fd : Int) : Nat → List (Nat × Nat × Nat) → List Event
  | _, [] => []
  | i, (length, offset, address) :: rest =>
    .querybuf fd i (some (length, offset)) :: .mmap fd length offset address ::
      mapCalls fd (i + 1) rest

/-- The unmap calls for the given slots, in order, all successful. -/
def unmapCalls (slots : List video_buffer_t) : List Event :=
  slots.map fun b => .munmap b.start b.length true

/-- What `unmap_video_buffers` leaves behind on a pool `pre ++ rest` when the
unmap calls of `pre` succeed and the one of the first slot of `rest`, if
there is one, fails: the slots of `pre` are unmapped; the first slot of
`rest` is attempted, its failure reported and the process ended; the slots
after it are not attempted. -/
def unmapOutcome (st : State) (pre rest : List video_buffer_t) : State :=
  match rest with
  | [] => ⟨st.trace ++ unmapCalls pre, st.video_buffers, st.thread_exit_signal, st.status⟩
  | b :: _ =>
    ⟨st.trace ++ unmapCalls pre ++
        [.munmap b.start b.length false, .stderr .unmapFailed, .exit EXIT_FAILURE],
      st.video_buffers, st.thread_exit_signal, .exited EXIT_FAILURE⟩

/-- The enqueue calls for the indices `i, i + 1, ..., i + k - 1`, all accepted. -/
def enqueueCalls (fd : Int) : Nat → Nat → List Event
  | 0, _ => []
  | k + 1, i => .qbuf fd i true :: enqueueCalls fd k (i + 1)

/-- The trace of `k` consecutive timed-out waits. -/
def timeoutRounds (fd : Int) : Nat → List Event
  | 0 => []
  | k + 1 => .select fd .timeout :: .stderr .timedOut :: timeoutRounds fd k

/-- Number of readiness waits in a trace. -/
def selectCalls (tr : List Event) : Nat :=
  tr.countP fun e => match e with
    | .select _ _ => true
    | _ => false

/-- What the consumer must be handed for the slot `b`: the slot's address,
and as `int` the slot's length, i.e. the 32-bit two's complement number
congruent to it (the length itself when it is below `2 ^ 31`). -/
def consumerArgsOK (b : video_buffer_t) (frame : Nat) (length : Int) : Bool :=
  frame == b.start &&
    decide (-(2 : Int) ^ 31 ≤ length ∧ length < 2 ^ 31 ∧ (length - b.length) % 2 ^ 32 = 0)

/-- Where the capture loop stands between two of its calls. -/
inductive LoopPos where
  | waiting
  | timedOut
  | readable
  | held (index : Nat) (consumed : Bool)
  | failing (m : Message)
  | reported
  | dead
deriving DecidableEq

/-- The ownership protocol of the capture loop on the descriptor `fd` over
the pool `table`, one event at a time; `none` is a violation.  From
`waiting` only a wait may follow; a timed-out wait is reported and the loop
waits again; after a readable wait only a dequeue may follow; once slot
`index` is dequeued (`held index false`) only the consumer call may follow,
and it must carry what `consumerArgsOK` asks for that slot; after the
consumer call (`held index true`) only the enqueue of that same index may
follow; a failed wait, dequeue or enqueue is followed by its report and the
exit, after which nothing follows. -/
def loopStep (table : Option (List (Option video_buffer_t))) (fd : Int) :
    LoopPos → Event → Option LoopPos
  | .waiting, .select fd' r =>
    if fd' = fd then
      match r with
      | .error => some (.failing .selectError)
      | .timeout => some .timedOut
      | .ready true => some .readable
      | .ready false => some .waiting
    else none
  | .timedOut, .stderr m => if m = .timedOut then some .waiting else none
  | .readable, .dqbuf fd' r =>
    if fd' = fd then
      match r with
      | none => some (.failing .dqbufFailure)
      | some index => some (.held index false)
    else none
  | .held index false, .handler frame length =>
    match readSlot table index with
    | some b => if consumerArgsOK b frame length then some (.held index true) else none
    | none => none
  | .held index true, .qbuf fd' j ok =>
    if fd' = fd ∧ j = index then (if ok then some .waiting else some (.failing .qbufFailure))
    else none
  | .failing m, .stderr m' => if m' = m then some .reported else none
  | .reported, .exit code => if code = EXIT_FAILURE then some .dead else none
  | _, _ => none

/-- The ownership protocol over a whole trace. -/
def loopRun (table : Option (List (Option video_buffer_t))) (fd : Int) (pos : Option LoopPos)
    (tr : List Event) : Option LoopPos :=
  tr.foldl (fun p e => p.bind fun q => loopStep table fd q e) pos

/-- The answer recorded in a wait, dequeue or enqueue event is the one the
device gives after the history `history`. -/
def answered (dev : Device) (history : List Event) : Event → Bool
  | .select _ r => decide (r = dev.select history)
  | .dqbuf _ r => decide (r = dev.vidioc_dqbuf history)
  | .qbuf _ index ok => decide (ok = dev.vidioc_qbuf history index)
  | _ => true

/-- Every wait, dequeue and enqueue of `tr`, issued after `history`, records
the device's answer at that moment. -/
def answeredAll (dev : Device) : List Event → List Event → Bool
  | _, [] => true
  | history, e :: rest => answered dev history e && answeredAll dev (history ++ [e]) rest

/-- The dequeue (`true`) and enqueue (`false`) calls of a trace for slot `i`,
in order. -/
def slotOps (i : Nat) : List Event → List Bool
  | [] => []
  | .dqbuf _ (some j) :: rest => if j = i then true :: slotOps i rest else slotOps i rest
  | .qbuf _ j _ :: rest => if j = i then false :: slotOps i rest else slotOps i rest
  | _ :: rest => slotOps i rest

/-- Whether, at the position `pos` of the loop, the next call for slot `i`
must be a dequeue: it must unless the loop holds slot `i`. -/
def expectsDequeue (i : Nat) : LoopPos → Bool
  | .held index _ => index != i
  | _ => true

/-- Strict alternation of dequeues and enqueues; `expect` is what must come
next (`true` for a dequeue). -/
def alternates : Bool → List Bool → Bool
  | _, [] => true
  | expect, op :: rest => op == expect && alternates (!expect) rest

/-- The capture loop, if the thread is in it, has ended only through one of
its three fatal exits (or through a read outside the table). -/
def endedFatally (p : Program) : Bool :=
  p.capture_pc != .looping || p.st.status == .running || p.st.status == .undefined ||
    (p.st.status == .exited EXIT_FAILURE &&
      ((p.st.trace.reverse.take 2).reverse == [.stderr .selectError, .exit EXIT_FAILURE] ||
       (p.st.trace.reverse.take 2).reverse == [.stderr .dqbufFailure, .exit EXIT_FAILURE] ||
       (p.st.trace.reverse.take 2).reverse == [.stderr .qbufFailure, .exit EXIT_FAILURE]))

/-- The state `st'` extends `st` by events that contain no teardown call and no failed
dequeue, and leaves the cancellation flag alone. -/
def Quiet (st st' : State) : Prop :=
  ∃ new, st'.trace = st.trace ++ new ∧ st'.thread_exit_signal = st.thread_exit_signal ∧
    teardownCalls new = [] ∧ (∀ fd, Event.dqbuf fd none ∉ new)

/-- What holds of the two threads at every moment after thread creation,
`base` being the trace at that moment: the flag is down, the capture thread
has not returned, the main thread has not got past the join, the capture
loop has ended at most fatally, and since then no teardown call was issued
and a failed dequeue was at once followed by the report and the exit. -/
def Invariant (base : List Event) (p : Program) : Prop :=
  p.st.thread_exit_signal = 0 ∧ p.capture_pc ≠ .returned ∧ p.main_pc ≠ .finished ∧
  endedFatally p = true ∧
  ∃ post, p.st.trace = base ++ post ∧ teardownCalls post = [] ∧
    ∀ fd, Event.dqbuf fd none ∈ post →
      p.st.status = .exited EXIT_FAILURE ∧
      ∃ pre, post = pre ++ [.dqbuf fd none, .stderr .dqbufFailure, .exit EXIT_FAILURE]

/-! Section: Mock devices -/

/-- A device that accepts every call and grants `n` buffers of 614400 bytes
(640 x 480 YUY2), buffer `i` at offset `i * 614400`, mapped at `4096 + offset` (the offset is
a `__u32`); the dequeues go round the pool. -/
def mockDevice (n : Nat) : Device where
  atexit := fun _ => true
  stat := fun _ => some true
  sys_open := fun _ => some 3
  close := fun _ _ => true
  vidioc_s_fmt := fun _ => true
  vidioc_s_parm := fun _ => true
  vidioc_reqbufs := fun _ _ => some n
  malloc := fun _ _ => true
  vidioc_querybuf := fun _ i => some (614400, i * 614400)
  mmap := fun _ _ offset => 4096 + offset % 2 ^ 32
  munmap := fun _ _ _ => true
  vidioc_qbuf := fun _ _ => true
  vidioc_dqbuf := fun tr => some (dqbufCalls tr % n)
  vidioc_streamon := fun _ => true
  vidioc_streamoff := fun _ => true
  select := fun _ => .ready true
  sdl := fun _ _ => true
  pthread_create := fun _ => true

/-- The mock device with a memory-map primitive that fails on its `k`-th call. -/
def mmapFaultDevice (n k : Nat) : Device :=
  { mockDevice n with
    mmap := fun tr _ offset => if mmapCalls tr + 1 = k then MAP_FAILED else 4096 + offset % 2 ^ 32 }

/-- The mock device with an unmap primitive that fails for the slots in `F`
(a slot is recognised by its address). -/
def munmapFaultDevice (n : Nat) (F : List Nat) : Device :=
  { mockDevice n with
    munmap := fun _ start _ => !(F.any fun i => start == 4096 + i * 614400) }

/-- The mock device with a dequeue that always fails. -/
def dqbufFaultDevice (n : Nat) : Device :=
  { mockDevice n with vidioc_dqbuf := fun _ => none }

/-- The mock device whose wait times out `K` times and is ready from then on. -/
def slowDevice (n K : Nat) : Device :=
  { mockDevice n with
    select := fun tr =>
      if (tr.countP fun e => e == .stderr .timedOut) < K then .timeout else .ready true }

/-- The mock device with one buffer of `2 ^ 31` bytes (the length field of a
V4L2 buffer is a `__u32`). -/
def hugeBufferDevice : Device :=
  { mockDevice 1 with vidioc_querybuf := fun _ _ => some (2 ^ 31, 0) }

/-- The pool of the mock device granting `n` buffers, mapped in a fresh process. -/
def mappedPool (n : Nat) : State :=
  memory_map_video_buffer (mockDevice n) 3 State.init

/-! Section: Theorems -/

@[simp] theorem emit_trace (st : State) (e : Event) : (st.emit e).trace = st.trace ++ [e] := rfl
@[simp] theorem emit_status (st : State) (e : Event) : (st.emit e).status = st.status := rfl
@[simp] theorem emit_video_buffers (st : State) (e : Event) :
    (st.emit e).video_buffers = st.video_buffers := rfl
@[simp] theorem emit_thread_exit_signal (st : State) (e : Event) :
    (st.emit e).thread_exit_signal = st.thread_exit_signal := rfl
@[simp] theorem fail_trace (st : State) (m : Message) :
    (st.fail m).trace = st.trace ++ [.stderr m, .exit EXIT_FAILURE] := rfl
@[simp] theorem fail_status (st : State) (m : Message) :
    (st.fail m).status = .exited EXIT_FAILURE := rfl
@[simp] theorem fail_video_buffers (st : State) (m : Message) :
    (st.fail m).video_buffers = st.video_buffers := rfl
@[simp] theorem fail_thread_exit_signal (st : State) (m : Message) :
    (st.fail m).thread_exit_signal = st.thread_exit_signal := rfl

theorem set_length_append {α : Type} (xs : List α) (x y : α) (rest : List α) :
    (xs ++ x :: rest).set xs.length y = xs ++ y :: rest := by
  induction xs with
  | nil => rfl
  | cons a xs ih => simp [ih]

theorem map_loop_accepting (dev : Device) (fd : Int)
    (hq : ∀ tr i, dev.vidioc_querybuf tr i ≠ none)
    (hm : ∀ tr l o, dev.mmap tr l o ≠ MAP_FAILED) :
    ∀ (remaining n_buffers : Nat) (st : State) (done : List (Option video_buffer_t)),
      st.video_buffers = some (done ++ List.replicate remaining none) → done.length = n_buffers →
      ∃ slots : List (Nat × Nat × Nat), slots.length = remaining ∧
        map_loop dev fd remaining n_buffers st =
          ⟨st.trace ++ mapCalls fd n_buffers slots,
            some (done ++ slots.map fun s => some ⟨s.2.2, s.1⟩),
            st.thread_exit_signal, st.status⟩ := by
  intro remaining
  induction remaining with
  | zero =>
    intro n_buffers st done hvb _
    refine ⟨[], rfl, ?_⟩
    cases st
    simp_all [map_loop, mapCalls]
  | succ r ih =>
    intro n_buffers st done hvb hlen
    subst hlen
    cases hqr : dev.vidioc_querybuf st.trace done.length with
    | none => exact absurd hqr (hq _ _)
    | some lo =>
      obtain ⟨l, o⟩ := lo
      generalize ha : dev.mmap (st.trace ++ [Event.querybuf fd done.length (some (l, o))]) l o = a
      have hne : a ≠ MAP_FAILED := ha ▸ hm _ l o
      have hstep : map_loop dev fd (r + 1) done.length st =
          map_loop dev fd r (done.length + 1)
            ⟨st.trace ++ [Event.querybuf fd done.length (some (l, o)), Event.mmap fd l o a],
              some ((done ++ [some ⟨a, l⟩]) ++ List.replicate r none),
              st.thread_exit_signal, st.status⟩ := by
        simp only [map_loop, hqr, emit_trace, emit_video_buffers, hvb, writeSlot, Option.map_some',
          ha, if_neg hne, List.replicate_succ, set_length_append]
        simp [State.emit]
      obtain ⟨slots, hslots, heq⟩ := ih (done.length + 1)
        ⟨st.trace ++ [Event.querybuf fd done.length (some (l, o)), Event.mmap fd l o a],
          some ((done ++ [some ⟨a, l⟩]) ++ List.replicate r none),
          st.thread_exit_signal, st.status⟩
        (done ++ [some ⟨a, l⟩]) rfl (by simp)
      refine ⟨(l, o, a) :: slots, by simp [hslots], ?_⟩
      rw [hstep, heq]
      simp [mapCalls]

theorem mmapCalls_append (xs ys : List Event) : mmapCalls (xs ++ ys) = mmapCalls xs + mmapCalls ys := by
  simp [mmapCalls, List.countP_append]

theorem querybufCalls_append (xs ys : List Event) :
    querybufCalls (xs ++ ys) = querybufCalls xs + querybufCalls ys := by
  simp [querybufCalls, List.countP_append]

theorem munmapCalls_append (xs ys : List Event) :
    munmapCalls (xs ++ ys) = munmapCalls xs + munmapCalls ys := by
  simp [munmapCalls, List.countP_append]

theorem mmapCalls_mapCalls (fd : Int) (slots : List (Nat × Nat × Nat)) :
    ∀ i, mmapCalls (mapCalls fd i slots) = slots.length := by
  induction slots with
  | nil => intro i; rfl
  | cons s slots ih =>
    intro i
    obtain ⟨l, o, a⟩ := s
    have := ih (i + 1)
    simp [mapCalls, mmapCalls, List.countP_cons] at this ⊢
    exact this

theorem querybufCalls_mapCalls (fd : Int) (slots : List (Nat × Nat × Nat)) :
    ∀ i, querybufCalls (mapCalls fd i slots) = slots.length := by
  induction slots with
  | nil => intro i; rfl
  | cons s slots ih =>
    intro i
    obtain ⟨l, o, a⟩ := s
    have := ih (i + 1)
    simp [mapCalls, querybufCalls, List.countP_cons] at this ⊢
    exact this

theorem munmapCalls_mapCalls (fd : Int) (slots : List (Nat × Nat × Nat)) :
    ∀ i, munmapCalls (mapCalls fd i slots) = 0 := by
  induction slots with
  | nil => intro i; rfl
  | cons s slots ih =>
    intro i
    obtain ⟨l, o, a⟩ := s
    have := ih (i + 1)
    simp [mapCalls, munmapCalls, List.countP_cons] at this ⊢
    exact this

theorem map_loop_fault (dev : Device) (fd : Int)
    (hq : ∀ tr i, dev.vidioc_querybuf tr i ≠ none) :
    ∀ (j remaining n_buffers : Nat) (st : State), j < remaining →
      (∀ tr l o, mmapCalls tr < mmapCalls st.trace + j → dev.mmap tr l o ≠ MAP_FAILED) →
      (∀ tr l o, mmapCalls tr = mmapCalls st.trace + j → dev.mmap tr l o = MAP_FAILED) →
      ∃ (slots : List (Nat × Nat × Nat)) (l o : Nat), slots.length = j ∧
        (∀ s ∈ slots, s.2.2 ≠ MAP_FAILED) ∧
        (map_loop dev fd remaining n_buffers st).trace =
          st.trace ++ mapCalls fd n_buffers slots ++
            [.querybuf fd (n_buffers + j) (some (l, o)), .mmap fd l o MAP_FAILED,
             .stderr .couldNotMap, .exit EXIT_FAILURE] ∧
        (map_loop dev fd remaining n_buffers st).status = .exited EXIT_FAILURE := by
  intro j
  induction j with
  | zero =>
    intro remaining n_buffers st hlt _ hfail
    obtain ⟨r, rfl⟩ : ∃ r, remaining = r + 1 := ⟨remaining - 1, by omega⟩
    cases hqr : dev.vidioc_querybuf st.trace n_buffers with
    | none => exact absurd hqr (hq _ _)
    | some lo =>
      obtain ⟨l, o⟩ := lo
      have ha := hfail (st.trace ++ [Event.querybuf fd n_buffers (some (l, o))]) l o
        (by simp [mmapCalls_append, mmapCalls])
      refine ⟨[], l, o, rfl, by simp, ?_, ?_⟩ <;>
        simp [map_loop, hqr, ha, mapCalls]
  | succ j ih =>
    intro remaining n_buffers st hlt hok hfail
    obtain ⟨r, rfl⟩ : ∃ r, remaining = r + 1 := ⟨remaining - 1, by omega⟩
    cases hqr : dev.vidioc_querybuf st.trace n_buffers with
    | none => exact absurd hqr (hq _ _)
    | some lo =>
      obtain ⟨l, o⟩ := lo
      have hne := hok (st.trace ++ [Event.querybuf fd n_buffers (some (l, o))]) l o
        (by simp [mmapCalls_append, mmapCalls])
      generalize ha : dev.mmap (st.trace ++ [Event.querybuf fd n_buffers (some (l, o))]) l o = a
        at hne
      have hstep : map_loop dev fd (r + 1) n_buffers st =
          map_loop dev fd r (n_buffers + 1)
            ⟨st.trace ++ [Event.querybuf fd n_buffers (some (l, o)), Event.mmap fd l o a],
              writeSlot st.video_buffers n_buffers ⟨a, l⟩, st.thread_exit_signal, st.status⟩ := by
        simp only [map_loop, hqr, emit_trace, emit_video_buffers, ha, if_neg hne]
        simp [State.emit]
      have hcount : mmapCalls (st.trace ++
          [Event.querybuf fd n_buffers (some (l, o)), Event.mmap fd l o a]) =
          mmapCalls st.trace + 1 := by
        simp [mmapCalls_append, mmapCalls]
      obtain ⟨slots, l', o', hlen, hmapped, htr, hst⟩ := ih r (n_buffers + 1)
        ⟨st.trace ++ [Event.querybuf fd n_buffers (some (l, o)), Event.mmap fd l o a],
          writeSlot st.video_buffers n_buffers ⟨a, l⟩, st.thread_exit_signal, st.status⟩
        (by omega)
        (fun tr l o h => hok tr l o (by simp only [hcount] at h; omega))
        (fun tr l o h => hfail tr l o (by simp only [hcount] at h; omega))
      refine ⟨(l, o, a) :: slots, l', o', by simp [hlen], ?_, ?_, ?_⟩
      · intro s hs
        rcases List.mem_cons.mp hs with rfl | hs
        · exact hne
        · exact hmapped s hs
      · rw [hstep, htr]
        simp [mapCalls, Nat.add_assoc, Nat.add_comm 1 j]
      · rw [hstep, hst]

theorem readSlot_append (pre rest : List video_buffer_t) (b : video_buffer_t) :
    readSlot (some ((pre ++ b :: rest).map some)) pre.length = some b := by
  induction pre with
  | nil => rfl
  | cons a pre ih => simpa [readSlot] using ih

theorem unmap_loop_accepting (dev : Device) :
    ∀ (bs pre rest : List video_buffer_t) (r : Nat) (st : State),
      st.video_buffers = some ((pre ++ (bs ++ rest)).map some) →
      (∀ tr b, b ∈ bs → dev.munmap tr b.start b.length = true) →
      unmap_loop dev (bs.length + r) pre.length st =
        unmap_loop dev r (pre.length + bs.length)
          ⟨st.trace ++ bs.map (fun b => Event.munmap b.start b.length true),
            st.video_buffers, st.thread_exit_signal, st.status⟩ := by
  intro bs
  induction bs with
  | nil =>
    intro pre rest r st _ _
    cases st
    simp
  | cons b bs ih =>
    intro pre rest r st hvb hok
    have hshape : (b :: bs).length + r = (bs.length + r) + 1 := by simp; omega
    have hread : readSlot st.video_buffers pre.length = some b := by
      rw [hvb]; exact readSlot_append pre (bs ++ rest) b
    have hb := hok st.trace b (List.mem_cons_self _ _)
    rw [hshape]
    simp only [unmap_loop, hread, hb, emit_trace, if_true]
    have := ih (pre ++ [b]) rest r (st.emit (Event.munmap b.start b.length true))
      (by simp [hvb]) (fun tr b' hb' => hok tr b' (List.mem_cons_of_mem _ hb'))
    simp only [List.length_append, List.length_singleton] at this
    rw [this]
    simp [Nat.add_assoc, Nat.add_comm 1]

theorem start_loop_signal (dev : Device) (fd : Int) :
    ∀ (k i : Nat) (st : State),
      (start_loop dev fd k i st).thread_exit_signal = st.thread_exit_signal := by
  intro k
  induction k with
  | zero => intro i st; rfl
  | succ k ih =>
    intro i st
    simp only [start_loop]
    split
    · rw [ih]; rfl
    · rfl

theorem start_loop_accepting (dev : Device) (fd : Int) (hq : ∀ tr i, dev.vidioc_qbuf tr i = true) :
    ∀ (k i : Nat) (st : State),
      start_loop dev fd k i st =
        ⟨st.trace ++ enqueueCalls fd k i, st.video_buffers, st.thread_exit_signal, st.status⟩ := by
  intro k
  induction k with
  | zero => intro i st; cases st; simp [start_loop, enqueueCalls]
  | succ k ih =>
    intro i st
    simp [start_loop, hq, ih, enqueueCalls]

/-- The true part of the contract of `start`: against a device that accepts
every call, `start_video_stream` issues the enqueue calls for the indices
`0 .. REQUEST_BUFFERS - 1` in order and then one stream-on, and nothing else. -/
theorem start_video_stream_accepting (dev : Device) (fd : Int) (st : State)
    (hrun : st.status = .running)
    (hq : ∀ tr i, dev.vidioc_qbuf tr i = true) (hon : ∀ tr, dev.vidioc_streamon tr = true) :
    start_video_stream dev fd st =
      ⟨st.trace ++ [.qbuf fd 0 true, .qbuf fd 1 true, .qbuf fd 2 true, .qbuf fd 3 true,
          .streamon fd true],
        st.video_buffers, st.thread_exit_signal, .running⟩ := by
  simp [start_video_stream, start_loop_accepting dev fd hq, State.andThen, hrun, hon,
    REQUEST_BUFFERS, enqueueCalls, State.emit]

/-- Below `2 ^ 31` the conversion to the handler's `int` keeps the length. -/
theorem int_of_size_t_of_lt (n : Nat) (h : n < 2 ^ 31) : int_of_size_t n = n := by
  have hmod : n % 2 ^ 32 = n := Nat.mod_eq_of_lt (by omega)
  unfold int_of_size_t
  rw [hmod, if_pos h]

theorem start_loop_cases (dev : Device) (fd : Int) :
    ∀ (k i : Nat) (st : State), ∃ new, (start_loop dev fd k i st).trace = st.trace ++ new ∧
      (∀ ok, Event.streamon fd ok ∉ new) ∧
      (((start_loop dev fd k i st).status = st.status ∧ ∀ j, Event.qbuf fd j false ∉ new) ∨
        (start_loop dev fd k i st).status = .exited EXIT_FAILURE) := by
  intro k
  induction k with
  | zero => intro i st; exact ⟨[], by simp [start_loop], by simp, Or.inl ⟨rfl, by simp⟩⟩
  | succ k ih =>
    intro i st
    cases hok : dev.vidioc_qbuf st.trace i with
    | false =>
      exact ⟨[.qbuf fd i false, .stderr .queueBufferFailed, .exit EXIT_FAILURE],
        by simp [start_loop, hok], by simp, Or.inr (by simp [start_loop, hok])⟩
    | true =>
      obtain ⟨new, htr, hon, hcases⟩ := ih (i + 1) (st.emit (.qbuf fd i true))
      refine ⟨.qbuf fd i true :: new, by simp [start_loop, hok, htr], ?_, ?_⟩
      · intro ok hmem
        rcases List.mem_cons.mp hmem with h | h
        · cases h
        · exact hon ok h
      · rcases hcases with ⟨hst, hno⟩ | hex
        · refine Or.inl ⟨by simp [start_loop, hok, hst], ?_⟩
          intro j hmem
          rcases List.mem_cons.mp hmem with h | h
          · cases h
          · exact hno j h
        · exact Or.inr (by simp [start_loop, hok, hex])

/-- The last sentence of the contract of `start`: when an enqueue of
`start_video_stream` is rejected, no stream-on call is issued. -/
theorem start_video_stream_rejected (dev : Device) (fd : Int) (st : State)
    (hrun : st.status = .running) (new : List Event)
    (hnew : (start_video_stream dev fd st).trace = st.trace ++ new)
    (j : Nat) (hrej : Event.qbuf fd j false ∈ new) :
    ∀ ok, Event.streamon fd ok ∉ new := by
  obtain ⟨new₁, htr, hon, hcases⟩ := start_loop_cases dev fd REQUEST_BUFFERS 0 st
  rcases hcases with ⟨hst, hno⟩ | hex
  · exfalso
    have hlive : (start_loop dev fd REQUEST_BUFFERS 0 st).status = .running := hst.trans hrun
    have hall : ∃ tail, new = new₁ ++ tail ∧ ∀ j, Event.qbuf fd j false ∉ tail := by
      cases hs : dev.vidioc_streamon (st.trace ++ new₁) with
      | true =>
        refine ⟨[.streamon fd true], ?_, by simp⟩
        have : (start_video_stream dev fd st).trace = st.trace ++ (new₁ ++ [.streamon fd true]) := by
          simp [start_video_stream, State.andThen, hlive, hs, htr]
        exact List.append_cancel_left (hnew.symm.trans this)
      | false =>
        refine ⟨[.streamon fd false, .stderr .streamOnFailed, .exit EXIT_FAILURE], ?_, by simp⟩
        have : (start_video_stream dev fd st).trace =
            st.trace ++ (new₁ ++ [.streamon fd false, .stderr .streamOnFailed,
              .exit EXIT_FAILURE]) := by
          simp [start_video_stream, State.andThen, hlive, hs, htr]
        exact List.append_cancel_left (hnew.symm.trans this)
    obtain ⟨tail, rfl, htail⟩ := hall
    rcases List.mem_append.mp hrej with h | h
    · exact hno j h
    · exact htail j h
  · have hdead : ¬ (start_loop dev fd REQUEST_BUFFERS 0 st).status = .running := by
      rw [hex]; decide
    have : (start_video_stream dev fd st).trace = st.trace ++ new₁ := by
      simp [start_video_stream, State.andThen, hdead, htr]
    have : new = new₁ := List.append_cancel_left (hnew.symm.trans this)
    subst this
    exact hon

/-- Claim C7.  Against a device that grants `n` buffers and accepts every
call, `memory_map_video_buffer` issues the buffer request (and allocates the
table), then for each index `0, ..., n - 1` in ascending order the query of
that index followed by the memory-map of the length and offset that query
returned, `n` queries and `n` memory-maps in all and nothing else; the pool
that `get_video_buffers` returns afterwards has exactly `n` slots, slot `i`
holding the address memory-map `i` returned and the length query `i`
reported, and the process is as alive as before. -/
theorem memory_map_video_buffer_builds_table (dev : Device) (fd : Int) (st : State) (n : Nat)
    (hreq : dev.vidioc_reqbufs st.trace REQUEST_BUFFERS = some n)
    (hmalloc : ∀ tr size, dev.malloc tr size = true)
    (hq : ∀ tr i, dev.vidioc_querybuf tr i ≠ none)
    (hm : ∀ tr l o, dev.mmap tr l o ≠ MAP_FAILED) :
    ∃ slots : List (Nat × Nat × Nat), slots.length = n ∧
      (memory_map_video_buffer dev fd st).trace =
        st.trace ++ .reqbufs fd REQUEST_BUFFERS (some n) ::
          .malloc (n * sizeof_video_buffer_t) true :: mapCalls fd 0 slots ∧
      querybufCalls (mapCalls fd 0 slots) = n ∧ mmapCalls (mapCalls fd 0 slots) = n ∧
      get_video_buffers (memory_map_video_buffer dev fd st) =
        some (slots.map fun s => some ⟨s.2.2, s.1⟩) ∧
      (memory_map_video_buffer dev fd st).status = st.status := by
  obtain ⟨slots, hlen, heq⟩ := map_loop_accepting dev fd hq hm n 0
    ⟨st.trace ++ [.reqbufs fd REQUEST_BUFFERS (some n), .malloc (n * sizeof_video_buffer_t) true],
      some (List.replicate n none), st.thread_exit_signal, st.status⟩ [] rfl rfl
  have hrun : memory_map_video_buffer dev fd st = map_loop dev fd n 0
      ⟨st.trace ++ [.reqbufs fd REQUEST_BUFFERS (some n), .malloc (n * sizeof_video_buffer_t) true],
        some (List.replicate n none), st.thread_exit_signal, st.status⟩ := by
    simp [memory_map_video_buffer, hreq, hmalloc, State.emit]
  refine ⟨slots, hlen, ?_, ?_, ?_, ?_, ?_⟩
  · rw [hrun, heq]; simp
  · rw [querybufCalls_mapCalls, hlen]
  · rw [mmapCalls_mapCalls, hlen]
  · rw [hrun, heq]; simp [get_video_buffers]
  · rw [hrun, heq]

/-- Witness of C7 on the mock device granting four buffers. -/
theorem memory_map_video_buffer_builds_table_witness :
    ∃ slots : List (Nat × Nat × Nat), slots.length = 4 ∧
      (memory_map_video_buffer (mockDevice 4) 3 State.init).trace =
        State.init.trace ++ .reqbufs 3 REQUEST_BUFFERS (some 4) ::
          .malloc (4 * sizeof_video_buffer_t) true :: mapCalls 3 0 slots ∧
      querybufCalls (mapCalls 3 0 slots) = 4 ∧ mmapCalls (mapCalls 3 0 slots) = 4 ∧
      get_video_buffers (memory_map_video_buffer (mockDevice 4) 3 State.init) =
        some (slots.map fun s => some ⟨s.2.2, s.1⟩) ∧
      (memory_map_video_buffer (mockDevice 4) 3 State.init).status = State.init.status :=
  memory_map_video_buffer_builds_table (mockDevice 4) 3 State.init 4 rfl (fun _ _ => rfl)
    (fun _ _ => by simp [mockDevice]) (fun _ _ o => by simp [mockDevice, MAP_FAILED]; omega)

/-- Claim C1, amended.  For every granted count `n` and every `k` with
`1 ≤ k ≤ n`, when `memory_map_video_buffer` runs against a device whose `k`-th
memory-map call fails (the buffer request, the allocation, every query and
every earlier memory-map call succeeding), it issues the queries and
memory-maps of the slots `0, ..., k - 2`, which are really mapped, then the
query and the failing memory-map of slot `k - 1`, reports the mapping error
and ends the process with `EXIT_FAILURE`; it issues no unmap call. -/
theorem memory_map_video_buffer_fault_exits (dev : Device) (fd : Int) (st : State) (n k : Nat)
    (hk : 1 ≤ k) (hkn : k ≤ n)
    (hreq : dev.vidioc_reqbufs st.trace REQUEST_BUFFERS = some n)
    (hmalloc : ∀ tr size, dev.malloc tr size = true)
    (hq : ∀ tr i, dev.vidioc_querybuf tr i ≠ none)
    (hok : ∀ tr l o, mmapCalls tr + 1 < mmapCalls st.trace + k → dev.mmap tr l o ≠ MAP_FAILED)
    (hfail : ∀ tr l o, mmapCalls tr + 1 = mmapCalls st.trace + k → dev.mmap tr l o = MAP_FAILED) :
    ∃ (slots : List (Nat × Nat × Nat)) (l o : Nat), slots.length = k - 1 ∧
      (∀ s ∈ slots, s.2.2 ≠ MAP_FAILED) ∧
      (memory_map_video_buffer dev fd st).trace =
        st.trace ++ .reqbufs fd REQUEST_BUFFERS (some n) ::
          .malloc (n * sizeof_video_buffer_t) true :: mapCalls fd 0 slots ++
          [.querybuf fd (k - 1) (some (l, o)), .mmap fd l o MAP_FAILED,
           .stderr .couldNotMap, .exit EXIT_FAILURE] ∧
      munmapCalls (memory_map_video_buffer dev fd st).trace = munmapCalls st.trace ∧
      (memory_map_video_buffer dev fd st).status = .exited EXIT_FAILURE := by
  have hrun : memory_map_video_buffer dev fd st = map_loop dev fd n 0
      ⟨st.trace ++ [.reqbufs fd REQUEST_BUFFERS (some n), .malloc (n * sizeof_video_buffer_t) true],
        some (List.replicate n none), st.thread_exit_signal, st.status⟩ := by
    simp [memory_map_video_buffer, hreq, hmalloc, State.emit]
  have hcount : mmapCalls (st.trace ++
      [.reqbufs fd REQUEST_BUFFERS (some n), .malloc (n * sizeof_video_buffer_t) true]) =
      mmapCalls st.trace := by
    simp [mmapCalls_append, mmapCalls]
  obtain ⟨slots, l, o, hlen, hmapped, htr, hst⟩ := map_loop_fault dev fd hq (k - 1) n 0
    ⟨st.trace ++ [.reqbufs fd REQUEST_BUFFERS (some n), .malloc (n * sizeof_video_buffer_t) true],
      some (List.replicate n none), st.thread_exit_signal, st.status⟩ (by omega)
    (fun tr l o h => hok tr l o (by simp only [hcount] at h; omega))
    (fun tr l o h => hfail tr l o (by simp only [hcount] at h; omega))
  refine ⟨slots, l, o, hlen, hmapped, ?_, ?_, ?_⟩
  · rw [hrun, htr]; simp
  · rw [hrun, htr]
    simp only [munmapCalls_append, munmapCalls_mapCalls, List.cons_append]
    simp [munmapCalls]
  · rw [hrun, hst]

/-- Witness of the amended C1: four buffers granted, the third memory-map fails. -/
theorem memory_map_video_buffer_fault_exits_witness :
    ∃ (slots : List (Nat × Nat × Nat)) (l o : Nat), slots.length = 3 - 1 ∧
      (∀ s ∈ slots, s.2.2 ≠ MAP_FAILED) ∧
      (memory_map_video_buffer (mmapFaultDevice 4 3) 3 State.init).trace =
        State.init.trace ++ .reqbufs 3 REQUEST_BUFFERS (some 4) ::
          .malloc (4 * sizeof_video_buffer_t) true :: mapCalls 3 0 slots ++
          [.querybuf 3 (3 - 1) (some (l, o)), .mmap 3 l o MAP_FAILED,
           .stderr .couldNotMap, .exit EXIT_FAILURE] ∧
      munmapCalls (memory_map_video_buffer (mmapFaultDevice 4 3) 3 State.init).trace =
        munmapCalls State.init.trace ∧
      (memory_map_video_buffer (mmapFaultDevice 4 3) 3 State.init).status =
        .exited EXIT_FAILURE :=
  memory_map_video_buffer_fault_exits (mmapFaultDevice 4 3) 3 State.init 4 3 (by decide)
    (by decide) rfl (fun _ _ => rfl) (fun _ _ => by simp [mmapFaultDevice, mockDevice])
    (fun tr l o h => by
      have h0 : mmapCalls State.init.trace = 0 := rfl
      rw [h0] at h
      have hne : ¬ mmapCalls tr + 1 = 3 := by omega
      simp only [mmapFaultDevice, hne, if_false, MAP_FAILED]
      omega)
    (fun tr l o h => by
      have h0 : mmapCalls State.init.trace = 0 := rfl
      rw [h0] at h
      have he : mmapCalls tr + 1 = 3 := by omega
      simp only [mmapFaultDevice, he, if_true])

/-- Counterexample to claim C1 as stated.  On the mock device granting four
buffers whose third memory-map call fails, `memory_map_video_buffer` ends the
process right after the failure: slots 0 and 1 were mapped (at 4096 and
618496) and no unmap call follows, so the rollback of the claim did not
happen. -/
theorem memory_map_video_buffer_no_rollback :
    (memory_map_video_buffer (mmapFaultDevice 4 3) 3 State.init).trace =
      [.reqbufs 3 4 (some 4), .malloc 64 true,
       .querybuf 3 0 (some (614400, 0)), .mmap 3 614400 0 4096,
       .querybuf 3 1 (some (614400, 614400)), .mmap 3 614400 614400 618496,
       .querybuf 3 2 (some (614400, 1228800)), .mmap 3 614400 1228800 MAP_FAILED,
       .stderr .couldNotMap, .exit EXIT_FAILURE] ∧
    (memory_map_video_buffer (mmapFaultDevice 4 3) 3 State.init).status =
      .exited EXIT_FAILURE ∧
    rolledBack (memory_map_video_buffer (mmapFaultDevice 4 3) 3 State.init).trace = false := by
  decide

/-- Claim C9, amended.  When the buffer request succeeds but grants zero
buffers, `memory_map_video_buffer` issues no query and no memory-map call; it
fails with the allocation error only if the allocation of the zero-byte
table returns `NULL`, and otherwise completes with an empty pool. -/
theorem memory_map_video_buffer_empty_grant (dev : Device) (fd : Int) (st : State)
    (hreq : dev.vidioc_reqbufs st.trace REQUEST_BUFFERS = some 0) :
    memory_map_video_buffer dev fd st =
      if dev.malloc (st.trace ++ [.reqbufs fd REQUEST_BUFFERS (some 0)]) 0 then
        ⟨st.trace ++ [.reqbufs fd REQUEST_BUFFERS (some 0), .malloc 0 true],
          some [], st.thread_exit_signal, st.status⟩
      else
        ⟨st.trace ++ [.reqbufs fd REQUEST_BUFFERS (some 0), .malloc 0 false,
            .stderr .allocationFailure, .exit EXIT_FAILURE],
          none, st.thread_exit_signal, .exited EXIT_FAILURE⟩ := by
  cases hm : dev.malloc (st.trace ++ [.reqbufs fd REQUEST_BUFFERS (some 0)]) 0 <;>
    simp [memory_map_video_buffer, hreq, hm, State.emit, State.fail, map_loop]

/-- Witness of the amended C9 on the mock device granting zero buffers. -/
theorem memory_map_video_buffer_empty_grant_witness :
    memory_map_video_buffer (mockDevice 0) 3 State.init =
      if (mockDevice 0).malloc (State.init.trace ++ [.reqbufs 3 REQUEST_BUFFERS (some 0)]) 0 then
        ⟨State.init.trace ++ [.reqbufs 3 REQUEST_BUFFERS (some 0), .malloc 0 true],
          some [], State.init.thread_exit_signal, State.init.status⟩
      else
        ⟨State.init.trace ++ [.reqbufs 3 REQUEST_BUFFERS (some 0), .malloc 0 false,
            .stderr .allocationFailure, .exit EXIT_FAILURE],
          none, State.init.thread_exit_signal, .exited EXIT_FAILURE⟩ :=
  memory_map_video_buffer_empty_grant (mockDevice 0) 3 State.init rfl

/-- Counterexample to claim C9 as stated.  The mock device grants zero
buffers and `malloc(0)` returns a non-null pointer: `memory_map_video_buffer`
returns normally, the process alive, with an empty pool and no error
reported. -/
theorem memory_map_video_buffer_accepts_empty_grant :
    (mockDevice 0).vidioc_reqbufs [] REQUEST_BUFFERS = some 0 ∧
    memory_map_video_buffer (mockDevice 0) 3 State.init =
      { trace := [.reqbufs 3 REQUEST_BUFFERS (some 0), .malloc 0 true],
        video_buffers := some [], thread_exit_signal := 0, status := .running } := by
  decide

/-- Claim C6, amended.  On a mapped pool of `REQUEST_BUFFERS` slots, split as
`pre ++ rest` where the unmap calls of `pre` succeed and the one of the first
slot of `rest` (the first failing slot, if any) fails, `unmap_video_buffers`
issues the unmap calls in slot order and stops at the first failure: the
slots of `pre` are unmapped, the failure of the next slot is reported once
and the process ends with `EXIT_FAILURE`, and the slots after it are never
attempted; with no failing slot (`rest = []`) every slot is unmapped and
nothing is reported. -/
theorem unmap_video_buffers_stops_at_first_failure (dev : Device) (st : State)
    (pre rest : List video_buffer_t)
    (hpool : get_video_buffers st = some ((pre ++ rest).map some))
    (hsize : pre.length + rest.length = REQUEST_BUFFERS)
    (hok : ∀ tr b, b ∈ pre → dev.munmap tr b.start b.length = true)
    (hfail : ∀ tr b, rest.head? = some b → dev.munmap tr b.start b.length = false) :
    unmap_video_buffers dev st = unmapOutcome st pre rest := by
  have hsplit := unmap_loop_accepting dev pre [] rest rest.length st
    (by simpa [get_video_buffers] using hpool) hok
  simp only [List.length_nil, Nat.zero_add] at hsplit
  rw [unmap_video_buffers, ← hsize, hsplit]
  cases rest with
  | nil => simp [unmap_loop, unmapOutcome, unmapCalls]
  | cons b rest =>
    have hread : readSlot st.video_buffers pre.length = some b := by
      have : st.video_buffers = some ((pre ++ b :: rest).map some) := hpool
      rw [this]; exact readSlot_append pre rest b
    have hb := hfail (st.trace ++ pre.map (fun b => Event.munmap b.start b.length true)) b rfl
    simp [unmap_loop, hread, hb, State.emit, State.fail, unmapOutcome, unmapCalls]

/-- Witness of the amended C6: four slots, the unmap of slot 1 fails. -/
theorem unmap_video_buffers_stops_at_first_failure_witness :
    unmap_video_buffers (munmapFaultDevice 4 [1]) (mappedPool 4) =
      unmapOutcome (mappedPool 4) [⟨4096, 614400⟩]
        [⟨618496, 614400⟩, ⟨1232896, 614400⟩, ⟨1847296, 614400⟩] :=
  unmap_video_buffers_stops_at_first_failure (munmapFaultDevice 4 [1]) (mappedPool 4)
    [⟨4096, 614400⟩] [⟨618496, 614400⟩, ⟨1232896, 614400⟩, ⟨1847296, 614400⟩]
    (by decide) (by decide)
    (fun tr b hb => by
      have : b = ⟨4096, 614400⟩ := by simpa using hb
      subst this
      rfl)
    (fun tr b hb => by
      have : b = ⟨618496, 614400⟩ := by simpa using hb.symm
      subst this
      rfl)

/-- Counterexample to claim C6 as stated.  On the mapped pool of four slots
with the unmap of slot 1 failing (`F = {1}`), `unmap_video_buffers` unmaps
slot 0, attempts slot 1, reports the failure and ends the process: slots 2
and 3 are never attempted, so fewer than four unmap calls are issued. -/
theorem unmap_video_buffers_not_best_effort :
    (mappedPool 4).status = .running ∧
    (unmap_video_buffers (munmapFaultDevice 4 [1]) (mappedPool 4)).trace =
      (mappedPool 4).trace ++
        [.munmap 4096 614400 true, .munmap 618496 614400 false, .stderr .unmapFailed,
         .exit EXIT_FAILURE] ∧
    munmapCalls (unmap_video_buffers (munmapFaultDevice 4 [1]) (mappedPool 4)).trace ≠ 4 := by
  decide

/-- Claim C8, the code at a failing input.  With five buffers granted and
mapped, `unmap_video_buffers` issues four unmap calls, not five: slot 4
(address 2461696) stays mapped.  With two buffers granted and mapped, after
the two unmap calls it reads `video_buffers[2]`, outside the table. -/
theorem unmap_video_buffers_ignores_granted_count :
    (mappedPool 5).status = .running ∧
    (get_video_buffers (mappedPool 5)).map List.length = some 5 ∧
    readSlot (get_video_buffers (mappedPool 5)) 4 = some ⟨2461696, 614400⟩ ∧
    (unmap_video_buffers (mockDevice 5) (mappedPool 5)).trace =
      (mappedPool 5).trace ++
        [.munmap 4096 614400 true, .munmap 618496 614400 true,
         .munmap 1232896 614400 true, .munmap 1847296 614400 true] ∧
    (mappedPool 2).status = .running ∧
    (get_video_buffers (mappedPool 2)).map List.length = some 2 ∧
    (unmap_video_buffers (mockDevice 2) (mappedPool 2)).status = .undefined := by
  decide

/-- Claim C3, the code at a failing input.  With five buffers granted and
mapped and a device that accepts every call, `start_video_stream` enqueues
the indices 0, 1, 2, 3 and streams on: slot 4 is never enqueued.  With two
buffers granted it enqueues the same four indices, two of which were never
mapped. -/
theorem start_video_stream_ignores_granted_count :
    (mappedPool 5).status = .running ∧
    (get_video_buffers (mappedPool 5)).map List.length = some 5 ∧
    (start_video_stream (mockDevice 5) 3 (mappedPool 5)).trace =
      (mappedPool 5).trace ++
        [.qbuf 3 0 true, .qbuf 3 1 true, .qbuf 3 2 true, .qbuf 3 3 true, .streamon 3 true] ∧
    (start_video_stream (mockDevice 2) 3 (mappedPool 2)).trace =
      (mappedPool 2).trace ++
        [.qbuf 3 0 true, .qbuf 3 1 true, .qbuf 3 2 true, .qbuf 3 3 true, .streamon 3 true] := by
  decide

theorem video_streaming_body_video_buffers (dev : Device) (arg : stream_handler_t) (st : State) :
    (video_streaming_body dev arg st).video_buffers = st.video_buffers := by
  unfold video_streaming_body
  simp only [State.andThen, get_video_buffers]
  split
  · rfl
  · rfl
  · split
    · split
      · rfl
      · split
        · split <;> split <;> (try split) <;> rfl
        · split <;> (try split) <;> rfl
    · rfl

theorem video_streaming_body_signal (dev : Device) (arg : stream_handler_t) (st : State) :
    (video_streaming_body dev arg st).thread_exit_signal = st.thread_exit_signal := by
  unfold video_streaming_body
  simp only [State.andThen, get_video_buffers]
  split
  · rfl
  · rfl
  · split
    · split
      · rfl
      · split
        · split <;> split <;> (try split) <;> rfl
        · split <;> (try split) <;> rfl
    · rfl

theorem int_of_size_t_consumerArgsOK (b : video_buffer_t) :
    consumerArgsOK b b.start (int_of_size_t b.length) = true := by
  have h : -(2 : Int) ^ 31 ≤ int_of_size_t b.length ∧ int_of_size_t b.length < 2 ^ 31 ∧
      (int_of_size_t b.length - b.length) % 2 ^ 32 = 0 := by
    unfold int_of_size_t
    split <;> omega
  simp only [consumerArgsOK, beq_self_eq_true, Bool.true_and, decide_eq_true_eq]
  exact h

/-- Below `2 ^ 31` the consumer is handed the slot's length itself. -/
theorem consumerArgsOK_of_lt (b : video_buffer_t) (frame : Nat) (length : Int)
    (hlt : b.length < 2 ^ 31) (h : consumerArgsOK b frame length = true) :
    frame = b.start ∧ length = b.length := by
  simp only [consumerArgsOK, Bool.and_eq_true, beq_iff_eq, decide_eq_true_eq] at h
  obtain ⟨hf, h1, h2, h3⟩ := h
  exact ⟨hf, by omega⟩

theorem loopRun_append (table : Option (List (Option video_buffer_t))) (fd : Int)
    (pos : Option LoopPos) (xs ys : List Event) :
    loopRun table fd pos (xs ++ ys) = loopRun table fd (loopRun table fd pos xs) ys := by
  simp [loopRun, List.foldl_append]

theorem loopRun_none (table : Option (List (Option video_buffer_t))) (fd : Int)
    (tr : List Event) : loopRun table fd none tr = none := by
  induction tr with
  | nil => rfl
  | cons e tr ih => simpa [loopRun] using ih

theorem loopRun_cons (table : Option (List (Option video_buffer_t))) (fd : Int)
    (pos : LoopPos) (e : Event) (tr : List Event) :
    loopRun table fd (some pos) (e :: tr) = loopRun table fd (loopStep table fd pos e) tr := by
  simp [loopRun]

theorem answeredAll_append (dev : Device) (xs : List Event) :
    ∀ (history ys : List Event),
      answeredAll dev history (xs ++ ys) =
        (answeredAll dev history xs && answeredAll dev (history ++ xs) ys) := by
  induction xs with
  | nil => intro history ys; simp [answeredAll]
  | cons e xs ih =>
    intro history ys
    simp [answeredAll, ih, Bool.and_assoc]

theorem slotOps_cons (i : Nat) (e : Event) (tr : List Event) :
    slotOps i (e :: tr) = slotOps i [e] ++ slotOps i tr := by
  cases e with
  | qbuf fd j ok => simp only [slotOps]; split <;> simp
  | dqbuf fd r =>
    cases r with
    | none => simp [slotOps]
    | some j => simp only [slotOps]; split <;> simp
  | _ => simp [slotOps]

theorem loopStep_alternates (table : Option (List (Option video_buffer_t))) (fd : Int) (i : Nat)
    (pos pos' : LoopPos) (e : Event) (h : loopStep table fd pos e = some pos')
    (ops : List Bool) (hops : alternates (expectsDequeue i pos') ops = true) :
    alternates (expectsDequeue i pos) (slotOps i [e] ++ ops) = true := by
  cases pos with
  | waiting =>
    cases e <;> simp [loopStep] at h
    rename_i fd' r
    obtain ⟨_, h⟩ := h
    have hpos : expectsDequeue i pos' = true := by
      cases r with
      | error => simp at h; subst h; rfl
      | timeout => simp at h; subst h; rfl
      | ready isset => cases isset <;> simp at h <;> subst h <;> rfl
    rw [hpos] at hops
    simpa [slotOps, expectsDequeue] using hops
  | timedOut =>
    cases e <;> simp [loopStep] at h
    obtain ⟨_, h⟩ := h
    subst h
    simpa [slotOps, expectsDequeue] using hops
  | readable =>
    cases e <;> simp [loopStep] at h
    rename_i fd' r
    obtain ⟨_, h⟩ := h
    cases r with
    | none =>
      simp at h; subst h
      simpa [slotOps, expectsDequeue] using hops
    | some j =>
      simp at h; subst h
      by_cases hj : j = i
      · subst hj
        simpa [slotOps, expectsDequeue, alternates] using hops
      · have hb : (j != i) = true := by simpa using hj
        simpa [slotOps, expectsDequeue, alternates, hj, hb] using hops
  | held index consumed =>
    cases consumed with
    | false =>
      cases e <;> simp [loopStep] at h
      rename_i frame length
      cases hslot : readSlot table index with
      | none => simp [hslot] at h
      | some b =>
        simp [hslot] at h
        obtain ⟨_, h⟩ := h
        subst h
        simpa [slotOps, expectsDequeue] using hops
    | true =>
      cases e <;> simp [loopStep] at h
      rename_i fd' j ok
      obtain ⟨⟨_, hj⟩, h⟩ := h
      subst hj
      have hpos : expectsDequeue i pos' = true := by
        cases ok <;> simp at h <;> subst h <;> rfl
      rw [hpos] at hops
      by_cases hj : j = i
      · subst hj
        simpa [slotOps, expectsDequeue, alternates] using hops
      · have hb : (j != i) = true := by simpa using hj
        simpa [slotOps, expectsDequeue, alternates, hj, hb] using hops
  | failing m =>
    cases e <;> simp [loopStep] at h
    obtain ⟨_, h⟩ := h
    subst h
    simpa [slotOps, expectsDequeue] using hops
  | reported =>
    cases e <;> simp [loopStep] at h
    obtain ⟨_, h⟩ := h
    subst h
    simpa [slotOps, expectsDequeue] using hops
  | dead => cases e <;> simp [loopStep] at h

theorem loopRun_alternates (table : Option (List (Option video_buffer_t))) (fd : Int) (i : Nat) :
    ∀ (tr : List Event) (pos pos' : LoopPos), loopRun table fd (some pos) tr = some pos' →
      alternates (expectsDequeue i pos) (slotOps i tr) = true := by
  intro tr
  induction tr with
  | nil => intro pos pos' _; rfl
  | cons e tr ih =>
    intro pos pos' h
    rw [loopRun_cons] at h
    cases hstep : loopStep table fd pos e with
    | none => rw [hstep, loopRun_none] at h; cases h
    | some pos₁ =>
      rw [hstep] at h
      rw [slotOps_cons]
      exact loopStep_alternates table fd i pos pos₁ e hstep _ (ih pos₁ pos' h)

theorem selectCalls_append (xs ys : List Event) :
    selectCalls (xs ++ ys) = selectCalls xs + selectCalls ys := by
  simp [selectCalls, List.countP_append]

/-- One iteration of the capture loop in a live process, with the frame
handler of `main`: the events it appends record the device's answers, hold
exactly one wait, and follow the ownership protocol from `waiting` to a
position that tells how the iteration ended. -/
theorem video_streaming_body_protocol (dev : Device) (fd : Int) (st : State)
    (hrun : st.status = .running) :
    ∃ new pos, (video_streaming_body dev ⟨fd, true⟩ st).trace = st.trace ++ new ∧
      answeredAll dev st.trace new = true ∧
      selectCalls new = 1 ∧
      loopRun st.video_buffers fd (some .waiting) new = some pos ∧
      ((video_streaming_body dev ⟨fd, true⟩ st).status = .running → pos = .waiting) ∧
      (∀ code, (video_streaming_body dev ⟨fd, true⟩ st).status = .exited code → pos = .dead) ∧
      ((video_streaming_body dev ⟨fd, true⟩ st).status = .undefined →
        ∃ i, pos = .held i false ∧ readSlot st.video_buffers i = none) := by
  unfold video_streaming_body
  simp only [State.andThen, get_video_buffers]
  cases hsel : dev.select st.trace with
  | error =>
    exact ⟨[.select fd .error, .stderr .selectError, .exit EXIT_FAILURE], .dead, by simp,
      by simp [answeredAll, answered, hsel], by simp [selectCalls],
      by simp [loopRun, loopStep], by simp, by simp, by simp⟩
  | timeout =>
    exact ⟨[.select fd .timeout, .stderr .timedOut], .waiting, by simp,
      by simp [answeredAll, answered, hsel], by simp [selectCalls],
      by simp [loopRun, loopStep], by simp, by simp [hrun], by simp [hrun]⟩
  | ready isset =>
    cases isset with
    | false =>
      exact ⟨[.select fd (.ready false)], .waiting, by simp,
        by simp [answeredAll, answered, hsel], by simp [selectCalls],
        by simp [loopRun, loopStep], by simp, by simp [hrun], by simp [hrun]⟩
    | true =>
      simp only [if_true, emit_trace]
      cases hdq : dev.vidioc_dqbuf (st.trace ++ [.select fd (.ready true)]) with
      | none =>
        exact ⟨[.select fd (.ready true), .dqbuf fd none, .stderr .dqbufFailure,
          .exit EXIT_FAILURE], .dead, by simp,
          by simp [answeredAll, answered, hsel, hdq], by simp [selectCalls],
          by simp [loopRun, loopStep], by simp, by simp, by simp⟩
      | some index =>
        cases hslot : readSlot st.video_buffers index with
        | none =>
          exact ⟨[.select fd (.ready true), .dqbuf fd (some index)], .held index false,
            by simp [hslot], by simp [answeredAll, answered, hsel, hdq], by simp [selectCalls],
            by simp [loopRun, loopStep], by simp [hslot], by simp [hslot],
            fun _ => ⟨index, rfl, hslot⟩⟩
        | some b =>
          have hargs := int_of_size_t_consumerArgsOK b
          cases hok : dev.vidioc_qbuf
              (st.trace ++ [.select fd (.ready true), .dqbuf fd (some index),
                .handler b.start (int_of_size_t b.length)]) index with
          | true =>
            exact ⟨[.select fd (.ready true), .dqbuf fd (some index),
              .handler b.start (int_of_size_t b.length), .qbuf fd index true], .waiting,
              by simp [hslot, hrun, hok],
              by simp [answeredAll, answered, hsel, hdq, hok], by simp [selectCalls],
              by simp [loopRun, loopStep, hslot, hargs], by simp,
              by simp [hslot, hrun, hok], by simp [hslot, hrun, hok]⟩
          | false =>
            exact ⟨[.select fd (.ready true), .dqbuf fd (some index),
              .handler b.start (int_of_size_t b.length), .qbuf fd index false,
              .stderr .qbufFailure, .exit EXIT_FAILURE], .dead,
              by simp [hslot, hrun, hok],
              by simp [answeredAll, answered, hsel, hdq, hok], by simp [selectCalls],
              by simp [loopRun, loopStep, hslot, hargs], by simp [hslot, hrun, hok],
              by simp, by simp [hslot, hrun, hok]⟩

/-- The capture loop over any number of iterations: the iterations of
`video_streaming_body_protocol` one after the other. -/
theorem video_streaming_loop_protocol (dev : Device) (fd : Int) :
    ∀ (fuel : Nat) (st : State), st.status = .running →
      ∃ new pos, (video_streaming_loop dev ⟨fd, true⟩ fuel st).1.trace = st.trace ++ new ∧
        answeredAll dev st.trace new = true ∧
        loopRun st.video_buffers fd (some .waiting) new = some pos ∧
        ((video_streaming_loop dev ⟨fd, true⟩ fuel st).1.status = .running →
          pos = .waiting ∧
          ((video_streaming_loop dev ⟨fd, true⟩ fuel st).2 = false → selectCalls new = fuel)) ∧
        (∀ code, (video_streaming_loop dev ⟨fd, true⟩ fuel st).1.status = .exited code →
          pos = .dead) ∧
        ((video_streaming_loop dev ⟨fd, true⟩ fuel st).1.status = .undefined →
          ∃ i, pos = .held i false ∧ readSlot st.video_buffers i = none) := by
  intro fuel
  induction fuel with
  | zero =>
    intro st hrun
    exact ⟨[], .waiting, by simp [video_streaming_loop], rfl, rfl,
      fun _ => ⟨rfl, fun _ => rfl⟩, by simp [video_streaming_loop, hrun],
      by simp [video_streaming_loop, hrun]⟩
  | succ fuel ih =>
    intro st hrun
    by_cases hsig : st.thread_exit_signal = 0
    · obtain ⟨new₁, pos₁, htr₁, hans₁, hsel₁, hrun₁, hlive₁, hdead₁, hcut₁⟩ :=
        video_streaming_body_protocol dev fd st hrun
      by_cases hlive : (video_streaming_body dev ⟨fd, true⟩ st).status = .running
      · obtain ⟨new₂, pos₂, htr₂, hans₂, hrun₂, hlive₂, hdead₂, hcut₂⟩ :=
          ih (video_streaming_body dev ⟨fd, true⟩ st) hlive
        have hloop : video_streaming_loop dev ⟨fd, true⟩ (fuel + 1) st =
            video_streaming_loop dev ⟨fd, true⟩ fuel (video_streaming_body dev ⟨fd, true⟩ st) := by
          simp [video_streaming_loop, hsig, hlive]
        rw [video_streaming_body_video_buffers] at hrun₂ hcut₂
        rw [htr₁] at hans₂
        refine ⟨new₁ ++ new₂, pos₂, by rw [hloop, htr₂, htr₁, List.append_assoc], ?_, ?_, ?_, ?_,
          ?_⟩
        · rw [answeredAll_append, hans₁, hans₂]; rfl
        · rw [loopRun_append, hrun₁, hlive₁ hlive, hrun₂]
        · rw [hloop]
          intro h
          refine ⟨(hlive₂ h).1, fun hflag => ?_⟩
          rw [selectCalls_append, hsel₁, (hlive₂ h).2 hflag, Nat.add_comm]
        · rw [hloop]; exact hdead₂
        · rw [hloop]; exact hcut₂
      · have hloop : video_streaming_loop dev ⟨fd, true⟩ (fuel + 1) st =
            (video_streaming_body dev ⟨fd, true⟩ st, false) := by
          simp [video_streaming_loop, hsig, hlive]
        refine ⟨new₁, pos₁, by rw [hloop, htr₁], hans₁, hrun₁, ?_, ?_, ?_⟩
        · rw [hloop]; intro h; exact absurd h hlive
        · rw [hloop]; exact hdead₁
        · rw [hloop]; exact hcut₁
    · have hloop : video_streaming_loop dev ⟨fd, true⟩ (fuel + 1) st = (st, true) := by
        simp [video_streaming_loop, hsig]
      refine ⟨[], .waiting, by simp [hloop], rfl, rfl, ?_, ?_, ?_⟩
      · rw [hloop]; intro _; exact ⟨rfl, fun h => by cases h⟩
      · rw [hloop]; intro code h; rw [hrun] at h; cases h
      · rw [hloop]; intro h; rw [hrun] at h; cases h

/-- Claim C2, amended.  For every device, however it answers, and every
number of iterations, the events the capture loop of `video_streaming`
(entered by a live process, with the frame handler of `main`) appends to the
trace record the device's answers and follow the ownership protocol
`loopStep` from the first to the last: a dequeue only follows a readable
wait; the dequeue of slot `i` is followed by exactly one consumer call,
which carries the address of slot `i` and its length as the `int` parameter
holds it (the length itself below `2 ^ 31`, its 32-bit two's complement wrap
otherwise); that call is followed by the enqueue of the same index `i`; and
no consumer call and no enqueue occurs anywhere else.  Hence for every slot
`i` the dequeues and enqueues of `i` strictly alternate, starting with a
dequeue.  While the process runs every iteration is complete (the protocol
stands at `waiting`, with one wait per iteration); after an exit it stands
at `dead`; a dequeued index outside the table cuts the run at the read of
the slot, before any consumer call or enqueue. -/
theorem capture_loop_ownership_protocol (dev : Device) (fd : Int) (fuel : Nat) (st : State)
    (hrun : st.status = .running) :
    ∃ new pos, (video_streaming_loop dev ⟨fd, true⟩ fuel st).1.trace = st.trace ++ new ∧
      answeredAll dev st.trace new = true ∧
      loopRun (get_video_buffers st) fd (some .waiting) new = some pos ∧
      (∀ i, alternates true (slotOps i new) = true) ∧
      ((video_streaming_loop dev ⟨fd, true⟩ fuel st).1.status = .running →
        pos = .waiting ∧
        ((video_streaming_loop dev ⟨fd, true⟩ fuel st).2 = false → selectCalls new = fuel)) ∧
      (∀ code, (video_streaming_loop dev ⟨fd, true⟩ fuel st).1.status = .exited code →
        pos = .dead) ∧
      ((video_streaming_loop dev ⟨fd, true⟩ fuel st).1.status = .undefined →
        ∃ i, pos = .held i false ∧ readSlot (get_video_buffers st) i = none) := by
  obtain ⟨new, pos, htr, hans, hprot, hlive, hdead, hcut⟩ :=
    video_streaming_loop_protocol dev fd fuel st hrun
  exact ⟨new, pos, htr, hans, hprot,
    fun i => loopRun_alternates st.video_buffers fd i new .waiting pos hprot, hlive, hdead, hcut⟩

/-- Witness of the amended C2: two iterations on the mapped four-slot pool. -/
theorem capture_loop_ownership_protocol_witness :
    ∃ new pos, (video_streaming_loop (mockDevice 4) ⟨3, true⟩ 2 (mappedPool 4)).1.trace =
        (mappedPool 4).trace ++ new ∧
      answeredAll (mockDevice 4) (mappedPool 4).trace new = true ∧
      loopRun (get_video_buffers (mappedPool 4)) 3 (some .waiting) new = some pos ∧
      (∀ i, alternates true (slotOps i new) = true) ∧
      ((video_streaming_loop (mockDevice 4) ⟨3, true⟩ 2 (mappedPool 4)).1.status = .running →
        pos = .waiting ∧
        ((video_streaming_loop (mockDevice 4) ⟨3, true⟩ 2 (mappedPool 4)).2 = false →
          selectCalls new = 2)) ∧
      (∀ code, (video_streaming_loop (mockDevice 4) ⟨3, true⟩ 2 (mappedPool 4)).1.status =
        .exited code → pos = .dead) ∧
      ((video_streaming_loop (mockDevice 4) ⟨3, true⟩ 2 (mappedPool 4)).1.status = .undefined →
        ∃ i, pos = .held i false ∧ readSlot (get_video_buffers (mappedPool 4)) i = none) :=
  capture_loop_ownership_protocol (mockDevice 4) 3 2 (mappedPool 4) (by decide)

/-- Counterexample to claim C2 as stated.  The device describes one buffer
of `2 ^ 31` bytes, which is mapped as slot 0; in the first iteration of the
capture loop slot 0 is dequeued and the consumer is called with the length
-2147483648, not with the length 2147483648 of slot 0. -/
theorem consumer_length_wraps :
    (memory_map_video_buffer hugeBufferDevice 3 State.init).status = .running ∧
    readSlot (get_video_buffers (memory_map_video_buffer hugeBufferDevice 3 State.init)) 0 =
      some ⟨4096, 2147483648⟩ ∧
    (video_streaming_loop hugeBufferDevice ⟨3, true⟩ 1
      (memory_map_video_buffer hugeBufferDevice 3 State.init)).1.trace =
      (memory_map_video_buffer hugeBufferDevice 3 State.init).trace ++
        [.select 3 (.ready true), .dqbuf 3 (some 0), .handler 4096 (-2147483648),
         .qbuf 3 0 true] ∧
    (-2147483648 : Int) ≠ ((2147483648 : Nat) : Int) := by
  decide

theorem timeoutRounds_succ (fd : Int) (st : List Event) (j : Nat) :
    st ++ [Event.select fd .timeout, Event.stderr .timedOut] ++ timeoutRounds fd j =
      st ++ timeoutRounds fd (j + 1) := by
  simp [timeoutRounds]

theorem video_streaming_loop_timeouts (dev : Device) (arg : stream_handler_t) :
    ∀ (K m : Nat) (st : State), st.thread_exit_signal = 0 → st.status = .running →
      (∀ j, j < K → dev.select (st.trace ++ timeoutRounds arg.device_descriptor j) = .timeout) →
      video_streaming_loop dev arg (K + m) st =
        video_streaming_loop dev arg m
          ⟨st.trace ++ timeoutRounds arg.device_descriptor K, st.video_buffers,
            st.thread_exit_signal, st.status⟩ := by
  intro K
  induction K with
  | zero =>
    intro m st _ _ _
    cases st
    simp [timeoutRounds]
  | succ K ih =>
    intro m st hsig hrun hto
    have h0 : dev.select st.trace = .timeout := by
      simpa [timeoutRounds] using hto 0 (Nat.succ_pos K)
    have hshape : K + 1 + m = (K + m) + 1 := by omega
    have hbody : video_streaming_body dev arg st =
        ⟨st.trace ++ [Event.select arg.device_descriptor .timeout, Event.stderr .timedOut],
          st.video_buffers, st.thread_exit_signal, st.status⟩ := by
      simp [video_streaming_body, h0, State.emit]
    rw [hshape, video_streaming_loop]
    simp only [hsig, ne_eq, not_true_eq_false, if_false, hbody, hrun, if_true]
    have h := ih m
      ⟨st.trace ++ [Event.select arg.device_descriptor .timeout, Event.stderr .timedOut],
        st.video_buffers, st.thread_exit_signal, st.status⟩ hsig hrun
      (fun j hj => by simpa [timeoutRounds] using hto (j + 1) (by omega))
    simpa [timeoutRounds, hsig, hrun] using h

theorem handlerCalls_timeoutRounds (fd : Int) (K : Nat) :
    handlerCalls (timeoutRounds fd K) = 0 := by
  induction K with
  | zero => rfl
  | succ K ih =>
    simp only [timeoutRounds, handlerCalls, List.countP_cons] at ih ⊢
    simpa using ih

/-- Claim C4.  For every `K`, when the wait of the capture loop times out `K`
times in a row and then reports the device readable, the dequeue returning
`index` (a slot of the pool) and the enqueue being accepted: after `K`
iterations the loop has only waited and reported the timeouts (no dequeue,
enqueue or consumer call), and after `K + 1` iterations it has added exactly
one dequeue, one consumer call with the slot's address and length, and one
enqueue of the same index; the consumer was called exactly once, the process
is running and the loop has not returned. -/
theorem timeout_is_not_fatal (dev : Device) (fd : Int) (K : Nat) (st : State) (index : Nat)
    (b : video_buffer_t)
    (hsig : st.thread_exit_signal = 0) (hrun : st.status = .running)
    (hto : ∀ j, j < K → dev.select (st.trace ++ timeoutRounds fd j) = .timeout)
    (hready : dev.select (st.trace ++ timeoutRounds fd K) = .ready true)
    (hdq : dev.vidioc_dqbuf (st.trace ++ timeoutRounds fd K ++ [.select fd (.ready true)]) =
      some index)
    (hslot : readSlot (get_video_buffers st) index = some b)
    (hq : dev.vidioc_qbuf (st.trace ++ timeoutRounds fd K ++
      [.select fd (.ready true), .dqbuf fd (some index),
       .handler b.start (int_of_size_t b.length)]) index = true) :
    video_streaming_loop dev ⟨fd, true⟩ K st =
      (⟨st.trace ++ timeoutRounds fd K, st.video_buffers, 0, .running⟩, false) ∧
    video_streaming_loop dev ⟨fd, true⟩ (K + 1) st =
      (⟨st.trace ++ timeoutRounds fd K ++
          [.select fd (.ready true), .dqbuf fd (some index),
           .handler b.start (int_of_size_t b.length), .qbuf fd index true],
        st.video_buffers, 0, .running⟩, false) ∧
    handlerCalls (timeoutRounds fd K) = 0 ∧
    handlerCalls (timeoutRounds fd K ++
      [.select fd (.ready true), .dqbuf fd (some index),
       .handler b.start (int_of_size_t b.length), .qbuf fd index true]) = 1 := by
  have hcount := handlerCalls_timeoutRounds fd K
  refine ⟨?_, ?_, hcount, ?_⟩
  · have := video_streaming_loop_timeouts dev ⟨fd, true⟩ K 0 st hsig hrun hto
    simpa [video_streaming_loop, hsig, hrun] using this
  · rw [video_streaming_loop_timeouts dev ⟨fd, true⟩ K 1 st hsig hrun hto]
    have hslot' : readSlot st.video_buffers index = some b := hslot
    rw [List.append_assoc] at hdq hq
    simp [video_streaming_loop, video_streaming_body, hsig, hrun, hready, hdq, hslot',
      get_video_buffers, State.andThen, State.emit, hq]
  · have : handlerCalls (timeoutRounds fd K ++
        [.select fd (.ready true), .dqbuf fd (some index),
         .handler b.start (int_of_size_t b.length), .qbuf fd index true]) =
        handlerCalls (timeoutRounds fd K) + 1 := by
      simp [handlerCalls, List.countP_append, List.countP_cons]
    rw [this, hcount]

/-- Witness of C4: two timeouts, then a frame in slot 0 of the four-slot pool. -/
theorem timeout_is_not_fatal_witness :
    video_streaming_loop (slowDevice 4 2) ⟨3, true⟩ 2 (mappedPool 4) =
      (⟨(mappedPool 4).trace ++ timeoutRounds 3 2, (mappedPool 4).video_buffers, 0, .running⟩,
        false) ∧
    video_streaming_loop (slowDevice 4 2) ⟨3, true⟩ (2 + 1) (mappedPool 4) =
      (⟨(mappedPool 4).trace ++ timeoutRounds 3 2 ++
          [.select 3 (.ready true), .dqbuf 3 (some 0),
           .handler (4096 : Nat) (int_of_size_t 614400), .qbuf 3 0 true],
        (mappedPool 4).video_buffers, 0, .running⟩, false) ∧
    handlerCalls (timeoutRounds 3 2) = 0 ∧
    handlerCalls (timeoutRounds 3 2 ++
      [.select 3 (.ready true), .dqbuf 3 (some 0),
       .handler (4096 : Nat) (int_of_size_t 614400), .qbuf 3 0 true]) = 1 :=
  timeout_is_not_fatal (slowDevice 4 2) 3 2 (mappedPool 4) 0 ⟨4096, 614400⟩ (by decide)
    (by decide) (by decide) (by decide) (by decide) (by decide) (by decide)

theorem andThen_signal (st : State) (f : State → State)
    (hf : ∀ s, (f s).thread_exit_signal = s.thread_exit_signal) :
    (st.andThen f).thread_exit_signal = st.thread_exit_signal := by
  unfold State.andThen
  split
  · exact hf st
  · rfl

theorem map_loop_signal (dev : Device) (fd : Int) :
    ∀ (remaining n_buffers : Nat) (st : State),
      (map_loop dev fd remaining n_buffers st).thread_exit_signal = st.thread_exit_signal := by
  intro remaining
  induction remaining with
  | zero => intro n_buffers st; rfl
  | succ r ih =>
    intro n_buffers st
    simp only [map_loop]
    split
    · rfl
    · split
      · rfl
      · rw [ih]; rfl

theorem memory_map_video_buffer_signal (dev : Device) (fd : Int) (st : State) :
    (memory_map_video_buffer dev fd st).thread_exit_signal = st.thread_exit_signal := by
  unfold memory_map_video_buffer
  split
  · rfl
  · simp only []
    split
    · rw [map_loop_signal]; rfl
    · rfl

theorem start_video_stream_signal (dev : Device) (fd : Int) (st : State) :
    (start_video_stream dev fd st).thread_exit_signal = st.thread_exit_signal := by
  unfold start_video_stream
  rw [andThen_signal, start_loop_signal]
  intro s
  simp only []
  split <;> rfl

theorem stop_video_stream_signal (dev : Device) (fd : Int) (st : State) :
    (stop_video_stream dev fd st).thread_exit_signal = st.thread_exit_signal := by
  unfold stop_video_stream
  simp only []
  split <;> rfl

theorem open_video_stream_signal (dev : Device) (st : State) :
    (open_video_stream dev st).1.thread_exit_signal = st.thread_exit_signal := by
  unfold open_video_stream
  split
  · rfl
  · rfl
  · simp only []
    split <;> rfl

theorem main_setup_signal (dev : Device) (st : State) :
    (main_setup dev st).1.thread_exit_signal = st.thread_exit_signal := by
  unfold main_setup
  simp only []
  split
  · simp only []
    rw [andThen_signal, andThen_signal, andThen_signal, andThen_signal, andThen_signal,
      open_video_stream_signal]
    · rfl
    · intro s; unfold set_video_buffer_format; simp only []; split <;> rfl
    · intro s; unfold set_video_buffer_framerate; simp only []; split <;> rfl
    · exact memory_map_video_buffer_signal dev _
    · exact start_video_stream_signal dev _
    · intro s
      split
      · rfl
      · rw [andThen_signal, stop_video_stream_signal]
        · rfl
        · intro s; rfl
  · rfl

theorem video_streaming_loop_never_returns (dev : Device) (arg : stream_handler_t) :
    ∀ (fuel : Nat) (st : State), st.thread_exit_signal = 0 →
      (video_streaming_loop dev arg fuel st).2 = false ∧
      (video_streaming_loop dev arg fuel st).1.thread_exit_signal = 0 := by
  intro fuel
  induction fuel with
  | zero => intro st hsig; exact ⟨rfl, hsig⟩
  | succ fuel ih =>
    intro st hsig
    have hbody := video_streaming_body_signal dev arg st
    simp only [video_streaming_loop, hsig, ne_eq, not_true_eq_false, if_false]
    split
    · exact ih _ (hbody.trans hsig)
    · exact ⟨rfl, hbody.trans hsig⟩

theorem teardownCalls_append (xs ys : List Event) :
    teardownCalls (xs ++ ys) = teardownCalls xs ++ teardownCalls ys := by
  simp [teardownCalls]

theorem Quiet.refl (st : State) : Quiet st st :=
  ⟨[], by simp, rfl, rfl, by simp⟩

theorem Quiet.trans {a b c : State} (hab : Quiet a b) (hbc : Quiet b c) : Quiet a c := by
  obtain ⟨n₁, h₁, s₁, t₁, d₁⟩ := hab
  obtain ⟨n₂, h₂, s₂, t₂, d₂⟩ := hbc
  refine ⟨n₁ ++ n₂, by rw [h₂, h₁, List.append_assoc], s₂.trans s₁,
    by rw [teardownCalls_append, t₁, t₂]; rfl, ?_⟩
  intro fd hmem
  rcases List.mem_append.mp hmem with h | h
  · exact d₁ fd h
  · exact d₂ fd h

theorem Quiet.andThen (st : State) (f : State → State) (hf : ∀ s, Quiet s (f s)) :
    Quiet st (st.andThen f) := by
  unfold State.andThen
  split
  · exact hf st
  · exact Quiet.refl st

theorem sdl_setup_call_quiet (dev : Device) (call : SdlCall) (m : Message) (st : State) :
    Quiet st (sdl_setup_call dev call m st) := by
  unfold sdl_setup_call
  simp only []
  split
  · exact ⟨[.sdl call (dev.sdl st.trace call)], by simp, rfl, by simp [teardownCalls], by simp⟩
  · exact ⟨[.sdl call (dev.sdl st.trace call), .stderr m, .exit EXIT_FAILURE], by simp, rfl,
      by simp [teardownCalls], by simp⟩

theorem video_streaming_setup_quiet (dev : Device) (st : State) :
    Quiet st (video_streaming_setup dev st) := by
  unfold video_streaming_setup
  exact (((sdl_setup_call_quiet dev _ _ st).trans
    (Quiet.andThen _ _ (sdl_setup_call_quiet dev _ _))).trans
    (Quiet.andThen _ _ (sdl_setup_call_quiet dev _ _))).trans
    (Quiet.andThen _ _ (sdl_setup_call_quiet dev _ _))

/-- What one iteration of the capture loop can do to a live process: it
appends events without a teardown call; either the process lives on (or the
run is cut at a read outside the table) and no dequeue has failed, or the
process has exited with failure right after one of the three fatal reports,
and a failed dequeue, if there is one, is what was reported. -/
theorem video_streaming_body_program (dev : Device) (arg : stream_handler_t) (st : State)
    (hrun : st.status = .running) :
    ∃ new, (video_streaming_body dev arg st).trace = st.trace ++ new ∧
      teardownCalls new = [] ∧
      ((((video_streaming_body dev arg st).status = .running ∨
          (video_streaming_body dev arg st).status = .undefined) ∧
          ∀ fd, Event.dqbuf fd none ∉ new) ∨
        ((video_streaming_body dev arg st).status = .exited EXIT_FAILURE ∧
          (∃ pre m, new = pre ++ [.stderr m, .exit EXIT_FAILURE] ∧
            (m = .selectError ∨ m = .dqbufFailure ∨ m = .qbufFailure)) ∧
          ∀ fd, Event.dqbuf fd none ∈ new →
            ∃ pre, new = pre ++ [.dqbuf fd none, .stderr .dqbufFailure, .exit EXIT_FAILURE])) := by
  unfold video_streaming_body
  simp only [State.andThen, get_video_buffers]
  split
  · refine ⟨[.select arg.device_descriptor .error, .stderr .selectError, .exit EXIT_FAILURE],
      by simp, by simp [teardownCalls], Or.inr ⟨by simp, ⟨[.select arg.device_descriptor .error],
        .selectError, by simp⟩, by simp⟩⟩
  · exact ⟨[.select arg.device_descriptor .timeout, .stderr .timedOut], by simp,
      by simp [teardownCalls], Or.inl ⟨by simp [hrun], by simp⟩⟩
  · rename_i isset _
    cases isset with
    | false =>
      exact ⟨[.select arg.device_descriptor (.ready false)], by simp,
        by simp [teardownCalls], Or.inl ⟨by simp [hrun], by simp⟩⟩
    | true =>
      simp only [if_true]
      split
      · refine ⟨[.select arg.device_descriptor (.ready true), .dqbuf arg.device_descriptor none,
          .stderr .dqbufFailure, .exit EXIT_FAILURE], by simp, by simp [teardownCalls],
          Or.inr ⟨by simp, ⟨[.select arg.device_descriptor (.ready true),
            .dqbuf arg.device_descriptor none], .dqbufFailure, by simp⟩, ?_⟩⟩
        intro fd hmem
        have : fd = arg.device_descriptor := by simpa using hmem
        subst this
        exact ⟨[.select arg.device_descriptor (.ready true)], by simp⟩
      · rename_i index _
        cases hh : arg.frame_handler with
        | false =>
          cases hok : dev.vidioc_qbuf
              (st.trace ++ [.select arg.device_descriptor (.ready true),
                .dqbuf arg.device_descriptor (some index)]) index with
          | true =>
            exact ⟨[.select arg.device_descriptor (.ready true),
              .dqbuf arg.device_descriptor (some index), .qbuf arg.device_descriptor index true],
              by simp [hrun, hok], by simp [teardownCalls],
              Or.inl ⟨by simp [hrun, hok], by simp⟩⟩
          | false =>
            exact ⟨[.select arg.device_descriptor (.ready true),
              .dqbuf arg.device_descriptor (some index), .qbuf arg.device_descriptor index false,
              .stderr .qbufFailure, .exit EXIT_FAILURE],
              by simp [hrun, hok], by simp [teardownCalls],
              Or.inr ⟨by simp [hrun, hok], ⟨[.select arg.device_descriptor (.ready true),
                .dqbuf arg.device_descriptor (some index),
                .qbuf arg.device_descriptor index false], .qbufFailure, by simp⟩, by simp⟩⟩
        | true =>
          cases hslot : readSlot st.video_buffers index with
          | none =>
            exact ⟨[.select arg.device_descriptor (.ready true),
              .dqbuf arg.device_descriptor (some index)], by simp [hslot],
              by simp [teardownCalls], Or.inl ⟨by simp [hslot], by simp⟩⟩
          | some b =>
            cases hok : dev.vidioc_qbuf
                (st.trace ++ [.select arg.device_descriptor (.ready true),
                  .dqbuf arg.device_descriptor (some index),
                  .handler b.start (int_of_size_t b.length)]) index with
            | true =>
              exact ⟨[.select arg.device_descriptor (.ready true),
                .dqbuf arg.device_descriptor (some index),
                .handler b.start (int_of_size_t b.length),
                .qbuf arg.device_descriptor index true],
                by simp [hslot, hrun, hok], by simp [teardownCalls],
                Or.inl ⟨by simp [hslot, hrun, hok], by simp⟩⟩
            | false =>
              exact ⟨[.select arg.device_descriptor (.ready true),
                .dqbuf arg.device_descriptor (some index),
                .handler b.start (int_of_size_t b.length),
                .qbuf arg.device_descriptor index false,
                .stderr .qbufFailure, .exit EXIT_FAILURE],
                by simp [hslot, hrun, hok], by simp [teardownCalls],
                Or.inr ⟨by simp [hslot, hrun, hok], ⟨[.select arg.device_descriptor (.ready true),
                  .dqbuf arg.device_descriptor (some index),
                  .handler b.start (int_of_size_t b.length),
                  .qbuf arg.device_descriptor index false], .qbufFailure, by simp⟩, by simp⟩⟩

theorem endedFatally_of_setup (p : Program) (h : p.capture_pc = .setup) :
    endedFatally p = true := by
  simp [endedFatally, h]

theorem endedFatally_of_running (p : Program) (h : p.st.status = .running) :
    endedFatally p = true := by
  simp [endedFatally, h]

theorem endedFatally_of_undefined (p : Program) (h : p.st.status = .undefined) :
    endedFatally p = true := by
  simp [endedFatally, h]

theorem endedFatally_of_fatal (p : Program) (pre : List Event) (m : Message)
    (hst : p.st.status = .exited EXIT_FAILURE)
    (htr : p.st.trace = pre ++ [.stderr m, .exit EXIT_FAILURE])
    (hm : m = .selectError ∨ m = .dqbufFailure ∨ m = .qbufFailure) :
    endedFatally p = true := by
  rcases hm with rfl | rfl | rfl <;> simp [endedFatally, hst, htr]

theorem step_invariant (dev : Device) (base : List Event) (p : Program) (s : Sched)
    (hinv : Invariant base p) : Invariant base (step dev p s) := by
  obtain ⟨hsig, hcap, hmain, hend, post, htr, htd, hdq⟩ := hinv
  unfold step
  split
  · rename_i hrun
    have hnodq : ∀ fd, Event.dqbuf fd none ∉ post := fun fd hmem => by
      have := (hdq fd hmem).1
      rw [hrun] at this
      exact absurd this (by decide)
    cases s with
    | main events =>
      simp only []
      unfold main_step
      cases hpc : p.main_pc with
      | eventLoop =>
        simp only []
        by_cases hexit : p.exit ≠ 0
        · rw [if_pos hexit]
          exact ⟨hsig, hcap, by simp, endedFatally_of_running _ hrun, post, htr, htd, hdq⟩
        · rw [if_neg hexit]
          exact ⟨hsig, hcap, by simp [hpc], endedFatally_of_running _ hrun, post, htr, htd, hdq⟩
      | joining =>
        simp only []
        rw [if_neg hcap]
        exact ⟨hsig, hcap, hmain, hend, post, htr, htd, hdq⟩
      | finished => exact absurd hpc hmain
    | capture =>
      simp only []
      unfold capture_step
      cases hpc : p.capture_pc with
      | setup =>
        simp only []
        obtain ⟨new, hnew, hs, ht, hd⟩ := video_streaming_setup_quiet dev p.st
        refine ⟨hs.trans hsig, ?_, hmain, ?_, post ++ new, ?_, ?_, ?_⟩
        · simp only []
          split <;> simp
        · by_cases hr : (video_streaming_setup dev p.st).status = .running
          · exact endedFatally_of_running _ hr
          · exact endedFatally_of_setup _ (by simp [hr])
        · simp [hnew, htr]
        · rw [teardownCalls_append, htd, ht]; rfl
        · intro fd hmem
          rcases List.mem_append.mp hmem with h | h
          · exact absurd h (hnodq fd)
          · exact absurd h (hd fd)
      | looping =>
        simp only []
        rw [if_neg (by simp [hsig])]
        obtain ⟨new, hnew, ht, hcases⟩ := video_streaming_body_program dev p.arg p.st hrun
        refine ⟨(video_streaming_body_signal dev p.arg p.st).trans hsig, by simp [hpc], hmain,
          ?_, post ++ new, by simp [hnew, htr], by rw [teardownCalls_append, htd, ht]; rfl, ?_⟩
        · rcases hcases with ⟨hr | hu, _⟩ | ⟨hex, ⟨pre, m, hpre, hm⟩, _⟩
          · exact endedFatally_of_running _ hr
          · exact endedFatally_of_undefined _ hu
          · exact endedFatally_of_fatal _ (p.st.trace ++ pre) m hex
              (by simp [hnew, hpre]) hm
        · intro fd hmem
          rcases List.mem_append.mp hmem with h | h
          · exact absurd h (hnodq fd)
          · rcases hcases with ⟨_, hno⟩ | ⟨hex, _, hfail⟩
            · exact absurd h (hno fd)
            · obtain ⟨pre, hpre⟩ := hfail fd h
              exact ⟨hex, post ++ pre, by simp [hpre]⟩
      | returned => exact absurd hpc hcap
  · exact ⟨hsig, hcap, hmain, hend, post, htr, htd, hdq⟩

theorem foldl_step_invariant (dev : Device) (base : List Event) :
    ∀ (schedule : List Sched) (p : Program), Invariant base p →
      Invariant base (schedule.foldl (step dev) p) := by
  intro schedule
  induction schedule with
  | nil => intro p h; exact h
  | cons s schedule ih => intro p h; exact ih _ (step_invariant dev base p s h)

theorem start_invariant (dev : Device) :
    Invariant (Program.start dev).st.trace (Program.start dev) :=
  ⟨(main_setup_signal dev State.init).trans rfl, by simp [Program.start],
    by simp [Program.start], endedFatally_of_setup _ rfl, [], by simp, rfl, by simp⟩

theorem run_invariant (dev : Device) (schedule : List Sched) :
    Invariant (Program.start dev).st.trace (run dev schedule) :=
  foldl_step_invariant dev _ schedule _ (start_invariant dev)

/-- Claim C10.  In every state the two threads can reach after thread
creation, under every schedule, every device and every sequence of user
events: `thread_exit_signal` is 0; the capture thread has not returned from
`video_streaming`, and if its loop has ended it ended through the process
exiting after a wait, dequeue or enqueue failure (or through a read outside
the table); the main thread has not got past `pthread_join`; the capture
loop, run on from that state for any number of iterations, does not leave
through its condition; and a step of the main thread, whatever events it
polls and whatever its local `exit` holds, changes nothing the capture
thread can see. -/
theorem cancellation_flag_never_raised (dev : Device) (schedule : List Sched) :
    (run dev schedule).st.thread_exit_signal = 0 ∧
    (run dev schedule).capture_pc ≠ .returned ∧
    (run dev schedule).main_pc ≠ .finished ∧
    endedFatally (run dev schedule) = true ∧
    (∀ arg fuel, (video_streaming_loop dev arg fuel (run dev schedule).st).2 = false) ∧
    (∀ events, (step dev (run dev schedule) (.main events)).st = (run dev schedule).st) := by
  obtain ⟨hsig, hcap, hmain, hend, _⟩ := run_invariant dev schedule
  refine ⟨hsig, hcap, hmain, hend,
    fun arg fuel => (video_streaming_loop_never_returns dev arg fuel _ hsig).1, ?_⟩
  intro events
  unfold step main_step
  split
  · simp only []
    cases hpc : (run dev schedule).main_pc with
    | eventLoop => simp only []; split <;> rfl
    | joining => simp [hcap]
    | finished => rfl
  · rfl

/-- Claim C5, amended.  When a dequeue call fails inside the capture loop
(`post` being what the program did after thread creation), the failure is
reported and the whole process ends at once with `EXIT_FAILURE`, from within
the capture thread; the main thread never gets past the join, and no
stream-off, unmap or close call is issued. -/
theorem dequeue_failure_exits_without_teardown (dev : Device) (schedule : List Sched) (fd : Int)
    (post : List Event)
    (hpost : (run dev schedule).st.trace = (Program.start dev).st.trace ++ post)
    (hfail : Event.dqbuf fd none ∈ post) :
    (run dev schedule).st.status = .exited EXIT_FAILURE ∧
    (∃ pre, post = pre ++ [.dqbuf fd none, .stderr .dqbufFailure, .exit EXIT_FAILURE]) ∧
    teardownCalls post = [] ∧
    (run dev schedule).main_pc ≠ .finished := by
  obtain ⟨_, _, hmain, _, post', htr, htd, hdq⟩ := run_invariant dev schedule
  have : post' = post := List.append_cancel_left (htr.symm.trans hpost)
  subst this
  exact ⟨(hdq fd hfail).1, (hdq fd hfail).2, htd, hmain⟩

/-- Witness of the amended C5 on the mock device whose dequeue fails. -/
theorem dequeue_failure_exits_without_teardown_witness :
    (run (dqbufFaultDevice 4)
      [.capture, .main [.quit], .main [], .main [], .capture]).st.status =
        .exited EXIT_FAILURE ∧
    (∃ pre, [Event.sdl .init true, .sdl .createWindow true, .sdl .createRenderer true,
        .sdl .createTexture true, .select 3 (.ready true), .dqbuf 3 none,
        .stderr .dqbufFailure, .exit EXIT_FAILURE] =
      pre ++ [.dqbuf 3 none, .stderr .dqbufFailure, .exit EXIT_FAILURE]) ∧
    teardownCalls [Event.sdl .init true, .sdl .createWindow true, .sdl .createRenderer true,
        .sdl .createTexture true, .select 3 (.ready true), .dqbuf 3 none,
        .stderr .dqbufFailure, .exit EXIT_FAILURE] = [] ∧
    (run (dqbufFaultDevice 4)
      [.capture, .main [.quit], .main [], .main [], .capture]).main_pc ≠ .finished :=
  dequeue_failure_exits_without_teardown (dqbufFaultDevice 4)
    [.capture, .main [.quit], .main [], .main [], .capture] 3
    [.sdl .init true, .sdl .createWindow true, .sdl .createRenderer true,
      .sdl .createTexture true, .select 3 (.ready true), .dqbuf 3 none,
      .stderr .dqbufFailure, .exit EXIT_FAILURE]
    (by decide) (by decide)

/-- Counterexample to claim C5 as stated.  On the mock device whose dequeue
fails, with the user having asked to quit and the main thread waiting in the
join, the capture thread ends the process at the failed dequeue: no
stream-off, no unmap and no close is ever issued. -/
theorem dequeue_failure_no_teardown :
    let p := run (dqbufFaultDevice 4) [.capture, .main [.quit], .main [], .main [], .capture]
    p.st.status = .exited EXIT_FAILURE ∧
    p.exit = 1 ∧ p.main_pc = .joining ∧
    (p.st.trace.reverse.take 3).reverse =
      [.dqbuf 3 none, .stderr .dqbufFailure, .exit EXIT_FAILURE] ∧
    teardownCalls p.st.trace = [] := by
  decide

end Ember
